import Mathlib

/-!
# Verification of the `lethe` actor runtime

Shallow embedding of the core of the `lethe` repository:

* `src/lethe/actor/__init__.py` — `Actor`, `ActorRegistry`, messaging,
  lifecycle (spawn / terminate / parent notification);
* `src/lethe/actor/tools.py` — the `send_message` tool wrapper;
* `src/lethe/actor/runner.py` — `ActorRunner.run`;
* `src/lethe/actor/amygdala.py` — `Amygdala.run_round`,
  `Amygdala._heuristic_seed_tags`, `Amygdala._compact_tag_log`;
* `src/lethe/conversation/__init__.py` — `ConversationState.get_combined_message`;
* `src/lethe/hippocampus/__init__.py` — `HippocampusManager.judge_response`.

Python objects are modelled as immutable records threaded through explicit
state passing.  The registry's `_actors` dict is an insertion-ordered
association list keyed by actor id; fresh `uuid4` identifiers are passed in
as explicit parameters.  `datetime` timestamps are passed in as opaque
strings where the code only formats them into output.  Fallible Python code
(raising) is modelled with `Except`.
-/

namespace Lethe

/-- `ActorState` from `actor/__init__.py` (INITIALIZING / RUNNING / WAITING /
TERMINATED). -/
inductive ActorState where
  | initializing
  | running
  | waiting
  | terminated
deriving DecidableEq

/-- `ActorMessage` from `actor/__init__.py`.  The `created_at` timestamp is
omitted: in the embedded code paths it is only read by `ActorMessage.format`,
which none of the claims touch.  The `uuid4`-generated `id` is passed
explicitly by callers. -/
structure ActorMessage where
  id : String
  sender : String
  recipient : String
  content : String
  replyTo : Option String
deriving DecidableEq

instance : DecidableEq (Except String ActorMessage) := fun x y =>
  match x, y with
  | Except.error a, Except.error b => decidable_of_iff (a = b) (by simp)
  | Except.error _, Except.ok _ => isFalse (by simp)
  | Except.ok _, Except.error _ => isFalse (by simp)
  | Except.ok a, Except.ok b => decidable_of_iff (a = b) (by simp)

/-- `ActorConfig` from `actor/__init__.py`. -/
structure ActorConfig where
  name : String
  group : String := "default"
  goals : String := ""
  model : String := ""
  tools : List String := []
  maxTurns : Nat := 20
  maxMessages : Nat := 50
deriving DecidableEq

/-- An `Actor` object from `actor/__init__.py`: its identity, configuration
and mutable fields (`state`, `_inbox`, `_messages`, `_result`, `_turns`).
The asyncio queue `_inbox` is a FIFO list (enqueue at the tail, dequeue at
the head).  The LLM client and task handle are not data. -/
structure Actor where
  id : String
  config : ActorConfig
  spawnedBy : String
  isPrincipal : Bool
  state : ActorState
  inbox : List ActorMessage
  messages : List ActorMessage
  result : Option String
  turns : Nat
deriving DecidableEq

/-- `ActorRegistry` from `actor/__init__.py`: the `_actors` dict (an
insertion-ordered association list keyed by actor id) and `_principal_id`.
The callback fields hold no data relevant to the claims. -/
structure ActorRegistry where
  actors : List (String × Actor)
  principalId : Option String
deriving DecidableEq

/-- Python dict assignment `d[k] = v`: replace the entry in place if the key
exists, else append at the end (insertion order). -/
def setEntry : List (String × Actor) → String → Actor → List (String × Actor)
  | [], k, a => [(k, a)]
  | (k', a') :: rest, k, a =>
      if k' = k then (k, a) :: rest else (k', a') :: setEntry rest k a

/-- `ActorRegistry.get`: `self._actors.get(actor_id)`. -/
def ActorRegistry.get (r : ActorRegistry) (actorId : String) : Option Actor :=
  (r.actors.find? (fun p => p.1 = actorId)).map Prod.snd

/-- Apply `f` to the actor stored under `actorId` (mutation of the shared
Python object reachable through the registry). -/
def ActorRegistry.modifyActor (r : ActorRegistry) (actorId : String)
    (f : Actor → Actor) : ActorRegistry :=
  { r with actors := r.actors.map (fun p => if p.1 = actorId then (p.1, f p.2) else p) }

/-- `ActorRegistry.spawn`: builds the actor (ending in state RUNNING — the
constructor sets INITIALIZING and `spawn` overwrites it with RUNNING before
returning), stores it under its id, and if `is_principal` is true overwrites
`_principal_id` unconditionally.  `newId` stands for the fresh
`uuid4()[:8]`. -/
def ActorRegistry.spawn (r : ActorRegistry) (config : ActorConfig)
    (spawnedBy : Option String) (isPrincipal : Bool) (newId : String) :
    Actor × ActorRegistry :=
  let actor : Actor :=
    { id := newId, config := config, spawnedBy := spawnedBy.getD "",
      isPrincipal := isPrincipal, state := ActorState.running,
      inbox := [], messages := [], result := none, turns := 0 }
  (actor,
   { actors := setEntry r.actors newId actor,
     principalId := if isPrincipal then some newId else r.principalId })

/-- `ActorRegistry.get_principal`. -/
def ActorRegistry.getPrincipal (r : ActorRegistry) : Option Actor :=
  match r.principalId with
  | some pid => r.get pid
  | none => none

/-- `Actor.send` as a registry transformation: append the message to the
recipient's `_messages` history and enqueue it into its `_inbox`. -/
def ActorRegistry.deliver (r : ActorRegistry) (recipientId : String)
    (msg : ActorMessage) : ActorRegistry :=
  r.modifyActor recipientId
    (fun b => { b with messages := b.messages ++ [msg], inbox := b.inbox ++ [msg] })

/-- `Actor.send_to`: constructs the message, resolves the recipient through
the registry, raises `ValueError` (modelled as `Except.error`) if missing —
before any state is touched — otherwise delivers via `recipient.send` and
then appends the message to the sender's own `_messages`.  Returns the
(possibly unchanged) registry alongside the outcome. -/
def sendTo (r : ActorRegistry) (senderId recipientId content : String)
    (replyTo : Option String) (msgId : String) :
    Except String ActorMessage × ActorRegistry :=
  let msg : ActorMessage :=
    { id := msgId, sender := senderId, recipient := recipientId,
      content := content, replyTo := replyTo }
  match r.get recipientId with
  | none => (Except.error ("Actor " ++ recipientId ++ " not found"), r)
  | some _ =>
      let r1 := r.deliver recipientId msg
      let r2 := r1.modifyActor senderId
        (fun a => { a with messages := a.messages ++ [msg] })
      (Except.ok msg, r2)

/-- Python truthiness helper for `x or y` on an optional string: `none` and
the empty string are falsy. -/
def orElseStr (x : Option String) (y : String) : String :=
  match x with
  | some s => if s = "" then y else s
  | none => y

/-- `ActorRegistry._on_actor_terminated`: look the actor up; if it has a
parent and the parent is RUNNING, build the `[TERMINATED]` notification and
deliver it to the parent (both the running-loop branch and the synchronous
fallback branch append to the parent's `_messages` and `_inbox`).  `noteId`
stands for the notification message's fresh uuid. -/
def ActorRegistry.onActorTerminated (r : ActorRegistry) (actorId : String)
    (noteId : String) : ActorRegistry :=
  match r.get actorId with
  | none => r
  | some actor =>
      let parent? := if actor.spawnedBy = "" then none else r.get actor.spawnedBy
      match parent? with
      | some parent =>
          if parent.state = ActorState.running then
            let msg : ActorMessage :=
              { id := noteId, sender := actorId, recipient := actor.spawnedBy,
                content := "[TERMINATED] " ++ actor.config.name ++ " finished: "
                  ++ orElseStr actor.result "no result",
                replyTo := none }
            r.deliver actor.spawnedBy msg
          else r
      | none => r

/-- `Actor.terminate`: unconditionally set `_result` (`result or` actor-name
default — the empty string counts as falsy) and `state = TERMINATED`, then
notify the registry.  There is no guard against repeated calls. -/
def terminate (r : ActorRegistry) (actorId : String) (result : Option String)
    (noteId : String) : ActorRegistry :=
  match r.get actorId with
  | none => r
  | some a =>
      let res := orElseStr result ("Actor " ++ a.config.name ++ " terminated")
      let r1 := r.modifyActor actorId
        (fun x => { x with result := some res, state := ActorState.terminated })
      r1.onActorTerminated actorId noteId

/-- `ActorRegistry.cleanup_terminated`: remove all TERMINATED actors. -/
def ActorRegistry.cleanupTerminated (r : ActorRegistry) : ActorRegistry :=
  { r with actors := r.actors.filter (fun p => p.2.state ≠ ActorState.terminated) }

/-- The `send_message` tool from `actor/tools.py`: unknown or terminated
recipients get an error string back and nothing is delivered; otherwise the
message goes through `Actor.send_to` and a confirmation string is returned.
The final branch is unreachable because the target was just found. -/
def sendMessageTool (r : ActorRegistry) (selfId actorId content replyTo : String)
    (msgId : String) : String × ActorRegistry :=
  match r.get actorId with
  | none =>
      ("Error: actor " ++ actorId
        ++ " not found. Use discover_actors() to find available actors.", r)
  | some target =>
      if target.state = ActorState.terminated then
        ("Error: actor " ++ actorId ++ " (" ++ target.config.name
          ++ ") is terminated.", r)
      else
        match sendTo r selfId actorId content
            (if replyTo = "" then none else some replyTo) msgId with
        | (Except.ok m, r1) =>
            ("Message sent (id=" ++ m.id ++ ") to " ++ target.config.name
              ++ " (" ++ actorId ++ ")", r1)
        | (Except.error e, r1) => (e, r1)

/-! ## Conversation manager (`conversation/__init__.py`) -/

/-- A Python `dict[str, str]` in insertion order (one entry per key). -/
abbrev Meta := List (String × String)

/-- Python `d[k] = v` on a metadata dict: replace in place if present, else
append. -/
def setItem : Meta → String → String → Meta
  | [], k, v => [(k, v)]
  | (k', v') :: rest, k, v =>
      if k' = k then (k, v) :: rest else (k', v') :: setItem rest k v

/-- Python `d.update(u)`: set each entry of `u` into `d` in order. -/
def dictUpdate (d u : Meta) : Meta :=
  u.foldl (fun acc p => setItem acc p.1 p.2) d

/-- Python `d.get(k)` / `d[k]` lookup (keys are unique in a dict built by
`setItem`, which keeps the first occurrence's position). -/
def dictGet (d : Meta) (k : String) : Option String :=
  (d.find? (fun p => p.1 = k)).map Prod.snd

/-- `PendingMessage` from `conversation/__init__.py` (`created_at` is never
read by the embedded code paths). -/
structure PendingMessage where
  content : String
  metadata : Meta
deriving DecidableEq

/-- The literal separator used by `ConversationState.get_combined_message`. -/
def combineSeparator : String :=
  "\n\n---\n[Additional message while processing:]\n"

/-- Python `sep.join(pieces)`. -/
def pyJoin (sep : String) : List String → String
  | [] => ""
  | [x] => x
  | x :: xs => x ++ sep ++ pyJoin sep xs

/-- `ConversationState.get_combined_message`: empty pending returns
`("", {})`; a single pending message is popped and returned as-is; otherwise
the contents are joined with the separator in list (FIFO) order, the
metadata dicts are merged in FIFO order via `dict.update`, and the pending
list is cleared.  Returns `((combined, metadata), pending')`. -/
def getCombinedMessage (pending : List PendingMessage) :
    (String × Meta) × List PendingMessage :=
  match pending with
  | [] => (("", []), [])
  | [m] => ((m.content, m.metadata), [])
  | ms =>
      let combined := pyJoin combineSeparator (ms.map (·.content))
      let merged := ms.foldl (fun acc m => dictUpdate acc m.metadata) []
      ((combined, merged), [])

/-! ## Hippocampus response judgment (`hippocampus/__init__.py`) -/

/-- The result dict of `HippocampusManager.judge_response`. -/
structure JudgeResult where
  sendToUser : Bool
  continueTask : Bool
  reason : String
deriving DecidableEq

/-- `default_result` in `judge_response`. -/
def judgeDefault : JudgeResult :=
  { sendToUser := true, continueTask := false, reason := "default" }

/-- `HippocampusManager.judge_response`.  `agentLookupFails` models
`get_or_create_agent` (or the network call) raising, which the enclosing
`try` turns into the default result.  `modelOutput` abstracts the LLM reply
after assistant-text extraction and JSON parsing (including the
first-balanced-braces retry and the per-key defaults `send_to_user=True`,
`continue_task=False`, `reason=""`); `none` means no usable text or invalid
JSON, which yields the default result.  `originalRequest` and
`isContinuation` are only interpolated into the prompt text; no branch of
the function reads them. -/
def judgeResponse (enabled : Bool) (agentLookupFails : Bool)
    (_originalRequest : String) (agentResponse : String) (iteration : Int)
    (_isContinuation : Bool) (modelOutput : Option JudgeResult) : JudgeResult :=
  if !enabled then judgeDefault
  else if agentLookupFails then judgeDefault
  else if agentResponse = "" && decide (iteration ≤ 2) then
    { sendToUser := false, continueTask := true,
      reason := "no response early iteration" }
  else if agentResponse = "" then
    { sendToUser := false, continueTask := false,
      reason := "no response late iteration" }
  else
    match modelOutput with
    | none => judgeDefault
    | some out => out

/-! ## Python string helpers (`str.splitlines`, `str.strip`, substring) -/

/-- `str.splitlines` restricted to `"\n"` line breaks (the only break
character the embedded code writes): split after each newline, with no
trailing empty line for a trailing newline. -/
def splitlinesCore : List Char → List (List Char)
  | [] => []
  | c :: rest =>
      if c = '\n' then [] :: splitlinesCore rest
      else
        match splitlinesCore rest with
        | [] => [[c]]
        | l :: ls => (c :: l) :: ls

/-- Python `s.splitlines()` (for `"\n"`-separated text). -/
def pySplitlines (s : String) : List String :=
  (splitlinesCore s.data).map String.mk

/-- The whitespace characters occurring in the embedded text (Python
`str.strip` also strips `\f`, `\v` and Unicode spaces, none of which the
embedded code produces). -/
def isPySpace (c : Char) : Bool :=
  c = ' ' || c = '\t' || c = '\n' || c = '\r'

/-- Python `s.strip()`. -/
def pyStrip (s : String) : String :=
  String.mk (((s.data.dropWhile isPySpace).reverse.dropWhile isPySpace).reverse)

/-- Python `s.startswith(pre)`, computed on the character lists. -/
def pyStartswith (pre s : String) : Bool :=
  pre.data.isPrefixOf s.data

/-- Python `s.lower()`, computed on the character lists (the embedded text
is ASCII, where `Char.toLower` agrees with Python). -/
def pyLower (s : String) : String :=
  String.mk (s.data.map Char.toLower)

/-- Contiguous-sublist test: `needle` occurs somewhere in the haystack. -/
def substrAux (needle : List Char) : List Char → Bool
  | [] => needle.isEmpty
  | c :: rest => needle.isPrefixOf (c :: rest) || substrAux needle rest

/-- Python `needle in hay` on strings: substring containment. -/
def substr (needle hay : String) : Bool :=
  substrAux needle.data hay.data

/-! ## Amygdala heuristic seed tags (`amygdala.py`, `_heuristic_seed_tags`)

Arithmetic is carried out in `ℚ`.  Every value the heuristic can produce is
an exact multiple of `1/100`, so Python's binary floating point and
`round(x, 2)` agree with exact rational arithmetic on all reachable values.
-/

def hasAnyCue (lower : String) (cues : List String) : Bool :=
  cues.any (fun k => substr k lower)

def hasPositiveCue (lower : String) : Bool :=
  hasAnyCue lower ["great", "love", "thanks", "good", "nice", "awesome"]

def hasNegativeCue (lower : String) : Bool :=
  hasAnyCue lower
    ["angry", "frustrated", "annoyed", "hate", "bad", "broken", "error", "failed"]

def hasContrastCue (lower : String) : Bool :=
  hasAnyCue lower [" but ", " though ", " however ", " keeps ", " still "]

def hasSarcasmCue (lower : String) : Bool :=
  substr "yeah right" lower || substr "sure..." lower
    || (substr "great job" lower && hasNegativeCue lower)

def hasUrgencyCue (lower : String) : Bool :=
  hasAnyCue lower ["urgent", "asap", "now", "immediately", "broken", "error", "failed"]

def hasRiskCue (lower : String) : Bool :=
  hasAnyCue lower ["deadline", "late", "overdue", "risk", "lost"]

/-- One entry of the seed list built by `_heuristic_seed_tags` (the final
`json.dumps` rendering is not modelled; the claims are about the record
fields). -/
structure SeedRec where
  signal : String
  valence : ℚ
  arousal : ℚ
  tags : List String
  highArousal : Bool
deriving DecidableEq

/-- Python `min(a, b)` on rationals (`a` when `a ≤ b`), computed with the
executable comparison `Rat.blt`. -/
def pyMin (a b : ℚ) : ℚ := if Rat.blt b a then b else a

/-- Python `max(a, b)` on rationals (`a` when `a ≥ b`), computed with the
executable comparison `Rat.blt`. -/
def pyMax (a b : ℚ) : ℚ := if Rat.blt a b then b else a

/-- Python `round(q, 2)`, as round-half-up via the executable
`Rat.floor`.  Every value the heuristic can produce is an exact multiple
of `1/100`, where every rounding mode (Python's half-even included) is the
identity, so round-half-up is faithful. -/
def round2 (q : ℚ) : ℚ :=
  ((Rat.floor (q * 100 + 1 / 2) : ℤ) : ℚ) / 100

def highArousalThreshold : ℚ := 75 / 100

/-- The per-line body of the loop in `_heuristic_seed_tags`. -/
def seedRecord (line : String) : SeedRec :=
  let lower := pyLower line
  let hasPositive := hasPositiveCue lower
  let hasNegative := hasNegativeCue lower
  let hasContrast := hasContrastCue lower
  let hasSarcasm := hasSarcasmCue lower
  let arousal : ℚ := 2 / 10
  let valence : ℚ := 0
  let tags : List String := []
  let (arousal, tags) :=
    if hasUrgencyCue lower then (arousal + 4 / 10, tags ++ ["urgency"])
    else (arousal, tags)
  let (arousal, valence, tags) :=
    if hasNegative then (arousal + 25 / 100, valence - 5 / 10, tags ++ ["negative_affect"])
    else (arousal, valence, tags)
  let (valence, tags) :=
    if hasPositive then (valence + 5 / 10, tags ++ ["positive_affect"])
    else (valence, tags)
  let (arousal, valence, tags) :=
    if hasPositive && (hasNegative || hasContrast || hasSarcasm) then
      (arousal + 1 / 10, valence - 6 / 10, tags ++ ["mixed_or_ironic"])
    else (arousal, valence, tags)
  let (arousal, tags) :=
    if hasRiskCue lower then (arousal + 2 / 10, tags ++ ["risk"])
    else (arousal, tags)
  let arousal := pyMax 0 (pyMin 1 arousal)
  let valence := pyMax (-1) (pyMin 1 valence)
  { signal := line.take 180,
    valence := round2 valence,
    arousal := round2 arousal,
    tags := if tags = [] then ["neutral"] else tags,
    highArousal := decide (arousal ≥ highArousalThreshold) }

/-- `_heuristic_seed_tags` up to JSON rendering: strip and drop blank signal
lines, keep the last 8, and build a seed record for each. -/
def heuristicSeedRecords (recentSignals : String) : List SeedRec :=
  let lines := ((pySplitlines recentSignals).map pyStrip).filter (· ≠ "")
  (lines.drop (lines.length - 8)).map seedRecord

/-! ## Amygdala tag-log compaction (`amygdala.py`, `_compact_tag_log`)

The file system interaction is reduced to its value: `none` stands for a
missing `emotional_tags.md`, `some c` for a file with content `c`.  The
function returns the new file value together with the amount added to
`tags_pruned_total`. -/

def tagLogMaxChars : Nat := 24000

def tagLogKeepLines : Nat := 140

/-- `Amygdala._compact_tag_log`.  `nowTs` stands for
`datetime.now(...).strftime("%Y-%m-%d %H:%M UTC")`. -/
def compactTagLog (file : Option String) (nowTs : String) : Option String × Nat :=
  match file with
  | none => (none, 0)
  | some content =>
      if content.length ≤ tagLogMaxChars then (some content, 0)
      else
        let lines := pySplitlines content
        let keep :=
          if lines.length > tagLogKeepLines then
            lines.drop (lines.length - tagLogKeepLines)
          else lines
        let pruned := lines.length - keep.length
        let header : List String :=
          ["# Emotional tags (compacted at " ++ nowTs ++ ")",
           "- pruned_lines: " ++ toString pruned,
           "- note: keeping only recent rolling window",
           ""]
        (some (pyStrip (pyJoin "\n" (header ++ keep)) ++ "\n"), pruned)

/-- The compacted file content as claim C5 describes it — the header line,
the `pruned_lines` line, then the last 140 lines of the input, with no
further lines.  Stated from the claim's words, for comparison with
`compactTagLog`. -/
def compactTagLogClaimed (content : String) (nowTs : String) : String :=
  let lines := pySplitlines content
  let keep :=
    if lines.length > tagLogKeepLines then
      lines.drop (lines.length - tagLogKeepLines)
    else lines
  let pruned := lines.length - keep.length
  pyJoin "\n"
    (["# Emotional tags (compacted at " ++ nowTs ++ ")",
      "- pruned_lines: " ++ toString pruned] ++ keep)

/-- First line of the compaction header, for the at-most-once-at-top
property. -/
def isHeaderLine (l : String) : Bool :=
  pyStartswith "# Emotional tags (compacted at " l

/-- A file "with the compaction header stacked at the top": its first two
lines both start the compaction header. -/
def twoHeadersTop (s : String) : Bool :=
  match pySplitlines s with
  | l0 :: l1 :: _ => isHeaderLine l0 && isHeaderLine l1
  | _ => false

/-- The kept window of `_compact_tag_log`:
`lines[-TAG_LOG_KEEP_LINES:] if len(lines) > TAG_LOG_KEEP_LINES else lines`. -/
def keepOf (content : String) : List String :=
  let lines := pySplitlines content
  if lines.length > tagLogKeepLines then
    lines.drop (lines.length - tagLogKeepLines)
  else lines

/-- A sequence of `_compact_tag_log` calls (one per heartbeat timestamp),
each acting on the file left by the previous one. -/
def compactSeq : Option String → List String → Option String
  | file, [] => file
  | file, ts :: rest => compactSeq (compactTagLog file ts).1 rest

/-! ## Actor runner (`actor/runner.py`)

The LLM is an oracle: for each turn it yields the tool calls it performs
(drawn from the actor tools of `actor/tools.py`) and either a final
response string or a raised exception.  The composed turn message (kickoff /
formatted inbox batch / neutral nudge) is only ever passed to the LLM, so
the oracle receives the turn index instead. -/

/-- A tool call the LLM can make during one `llm.chat` invocation.  Fresh
uuids (`msgId`, `noteId`, `newId`) are carried by the action. -/
inductive ToolAction where
  | sendMessage (actorId content replyTo msgId : String)
  | waitForResponse
  | discoverActors (group : String)
  | terminateSelf (result noteId : String)
  | spawnSubagent (name goals group toolsCsv model : String)
      (maxTurns : Nat) (newId : String)
deriving DecidableEq

/-- `spawn_subagent`'s comma-separated tool-list parsing:
`[t.strip() for t in tools.split(",") if t.strip()] if tools else []`. -/
def parseToolsCsv (s : String) : List String :=
  if s = "" then []
  else ((s.splitOn ",").map pyStrip).filter (· ≠ "")

/-- Interpret one tool call made by the actor `selfId` (`actor/tools.py`).
`wait_for_response` consumes the head of the actor's own inbox when one is
available (and otherwise times out, a no-op); `discover_actors` reads but
does not change state; `spawn_subagent` is bound only for the principal or
an actor whose config tools contain `"spawn"`. -/
def applyAction (r : ActorRegistry) (selfId : String) : ToolAction → ActorRegistry
  | ToolAction.sendMessage actorId content replyTo msgId =>
      (sendMessageTool r selfId actorId content replyTo msgId).2
  | ToolAction.waitForResponse =>
      r.modifyActor selfId (fun a => { a with inbox := a.inbox.tail })
  | ToolAction.discoverActors _ => r
  | ToolAction.terminateSelf result noteId =>
      terminate r selfId (some result) noteId
  | ToolAction.spawnSubagent name goals group toolsCsv model maxTurns newId =>
      match r.get selfId with
      | none => r
      | some a =>
          if a.isPrincipal || a.config.tools.contains "spawn" then
            let cfg : ActorConfig :=
              { name := name,
                group := if group = "" then a.config.group else group,
                goals := goals, model := model,
                tools := parseToolsCsv toolsCsv, maxTurns := maxTurns }
            (r.spawn cfg (some selfId) false newId).2
          else r

/-- One `llm.chat` call as the oracle reports it: the tool calls it made,
then the returned assistant string or a raised exception. -/
structure OracleStep where
  actions : List ToolAction
  response : Except String String

/-- The acknowledgment tokens the runner skips the idle wait for. -/
def ackWords : List String := ["ok", "done", "understood"]

/-- The turn loop of `ActorRunner.run` (`for turn in range(max_turns)`).
Carries the loop's `response` variable (the last successful LLM reply).
Each iteration: set `_turns = turn + 1`; exit if TERMINATED; drain the
inbox; call the LLM (on error, terminate with `"Error: <e>"` and exit);
exit if the tools terminated the actor; skip the idle wait on a bare
acknowledgment; otherwise wait up to 2 s for a new inbox message, which
consumes (and discards) the head of the inbox when one is present. -/
def runLoop (oracle : Nat → OracleStep) (selfId : String) :
    Nat → Nat → ActorRegistry → Option String → ActorRegistry × Option String
  | _, 0, r, lastResp => (r, lastResp)
  | turn, fuel + 1, r, lastResp =>
      let r1 := r.modifyActor selfId (fun a => { a with turns := turn + 1 })
      match r1.get selfId with
      | none => (r1, lastResp)
      | some a =>
          if a.state = ActorState.terminated then (r1, lastResp)
          else
            let r2 := r1.modifyActor selfId (fun x => { x with inbox := [] })
            let step := oracle turn
            let r3 := step.actions.foldl (fun acc act => applyAction acc selfId act) r2
            match step.response with
            | Except.error e =>
                (terminate r3 selfId (some ("Error: " ++ e)) "", lastResp)
            | Except.ok resp =>
                match r3.get selfId with
                | none => (r3, some resp)
                | some a1 =>
                    if a1.state = ActorState.terminated then (r3, some resp)
                    else if ackWords.contains (pyLower resp.trim) then
                      runLoop oracle selfId (turn + 1) fuel r3 (some resp)
                    else
                      let r4 := r3.modifyActor selfId
                        (fun x => { x with inbox := x.inbox.tail })
                      runLoop oracle selfId (turn + 1) fuel r4 (some resp)

/-- `response[:200] if response else 'none'` (a `None` or empty response
renders as `'none'`). -/
def truncResp : Option String → String
  | none => "none"
  | some s => if s = "" then "none" else s.take 200

/-- `ActorRunner.run`.  `factoryFails = some e` models the LLM factory (or
tool binding) raising `e`, which the outer `try` turns into termination
with `"Runner error: <e>"`.  Otherwise the turn loop runs for at most
`config.max_turns` iterations and the actor is force-terminated with
`"Max turns reached. Last response: <trunc>"` if it did not terminate
itself.  Returns the final registry and `actor._result or "No result"`. -/
def runnerRun (oracle : Nat → OracleStep) (selfId : String) (r : ActorRegistry)
    (factoryFails : Option String) : ActorRegistry × String :=
  match factoryFails with
  | some e =>
      let r1 := terminate r selfId (some ("Runner error: " ++ e)) ""
      (r1, orElseStr ((r1.get selfId).bind (·.result)) "No result")
  | none =>
      match r.get selfId with
      | none => (r, "No result")
      | some a =>
          let loopOut := runLoop oracle selfId 0 a.config.maxTurns r none
          let r1 := loopOut.1
          let r2 :=
            match r1.get selfId with
            | none => r1
            | some a1 =>
                if a1.state ≠ ActorState.terminated then
                  terminate r1 selfId
                    (some ("Max turns reached. Last response: " ++ truncResp loopOut.2)) ""
                else r1
          (r2, orElseStr ((r2.get selfId).bind (·.result)) "No result")

/-- Observer: the `_turns` counter of the actor registered under `id`. -/
def turnsAt (r : ActorRegistry) (id : String) : Option Nat :=
  (r.get id).map Actor.turns

/-- Observer: the `state` of the actor registered under `id`. -/
def stateAt (r : ActorRegistry) (id : String) : Option ActorState :=
  (r.get id).map Actor.state

/-- Observer: the `_result` of the actor registered under `id`. -/
def resultAt (r : ActorRegistry) (id : String) : Option (Option String) :=
  (r.get id).map Actor.result

/-- A tool call whose spawned id (if any) differs from `selfId` — the
`uuid4` freshness guarantee. -/
def actionFresh (selfId : String) : ToolAction → Prop
  | ToolAction.spawnSubagent _ _ _ _ _ _ newId => newId ≠ selfId
  | _ => True

/-- All tool calls the oracle ever makes are fresh for `selfId`. -/
def oracleFresh (selfId : String) (oracle : Nat → OracleStep) : Prop :=
  ∀ n, ∀ act ∈ (oracle n).actions, actionFresh selfId act

/-! ## Amygdala heartbeat round (`amygdala.py`, `Amygdala.run_round`)

The status dict `Amygdala._status`.  The bounded `_round_history` and
`_active_patterns` rings are not modelled: no claim reads them and their
entries carry wall-clock durations.  File I/O is reduced to the tag-log
value as in `compactTagLog`; the baseline-state read and the round-message
composition only feed the LLM prompt, which the oracle abstracts. -/

structure AmygdalaSt where
  state : String
  roundsTotal : Nat
  lastStartedAt : String
  lastCompletedAt : String
  lastTurns : Nat
  lastAlert : String
  lastResult : String
  lastError : String
  tagsPrunedTotal : Nat
deriving DecidableEq

/-- The initial `_status` dict set in `Amygdala.__init__`. -/
def amygdalaInitSt : AmygdalaSt :=
  { state := "idle", roundsTotal := 0, lastStartedAt := "",
    lastCompletedAt := "", lastTurns := 0, lastAlert := "",
    lastResult := "", lastError := "", tagsPrunedTotal := 0 }

/-- The `ActorConfig` built inside `run_round`. -/
def amygdalaConfig : ActorConfig :=
  { name := "amygdala", group := "main",
    goals := "Tag emotional salience, track arousal patterns, detect flashbacks, and notify cortex only when escalation is warranted.",
    tools := ["read_file", "write_file", "edit_file", "list_directory",
              "grep_search", "conversation_search", "memory_read"],
    maxTurns := 6 }

/-- `str(e)` for the `AttributeError` raised by `self.registry.events`:
`ActorRegistry` (in `actor/__init__.py`) defines no attribute `events`, and
nothing in the repository assigns one, so the lookup on line 205 of
`amygdala.py` raises on every turn that reaches it. -/
def attrErrorMsg : String :=
  "'ActorRegistry' object has no attribute 'events'"

/-- The `for turn in range(config.max_turns)` loop of `run_round`.  Per
turn: set `_turns`; exit if TERMINATED; drain the inbox; call `llm.chat`
(tool calls and outcome from the oracle).  If the chat raises, record
`last_error` and break.  If the chat returns, the very next statement
evaluates `self.registry.events`, which raises `AttributeError`; the flag
in the result marks this abort to the enclosing `except` block.  The
`user_message` extraction below the events query is therefore
unreachable. -/
def roundLoop (oracle : Nat → OracleStep) (amygId : String) :
    Nat → Nat → ActorRegistry → AmygdalaSt → ActorRegistry × AmygdalaSt × Bool
  | _, 0, r, st => (r, st, false)
  | turn, _fuel + 1, r, st =>
      let r1 := r.modifyActor amygId (fun a => { a with turns := turn + 1 })
      match r1.get amygId with
      | none => (r1, st, false)
      | some a =>
          if a.state = ActorState.terminated then (r1, st, false)
          else
            let r2 := r1.modifyActor amygId (fun x => { x with inbox := [] })
            let step := oracle turn
            let r3 := step.actions.foldl (fun acc act => applyAction acc amygId act) r2
            match step.response with
            | Except.error e => (r3, { st with lastError := e }, false)
            | Except.ok _ => (r3, st, true)

/-- `Amygdala.run_round`.  Parameters: the registry, the status dict, the
LLM oracle, `self.cortex_id`, the fresh id of the internal actor, the
tag-log file value, and the formatted timestamps (`last_started_at` /
`last_completed_at` ISO strings, and the two clock reads used by the two
`_compact_tag_log` calls).  Returns the final registry, status and tag-log
value.  Because every chat-completing turn aborts on the `registry.events`
`AttributeError`, `user_message` is never assigned and `last_alert` is
never updated. -/
def runRound (r₀ : ActorRegistry) (st₀ : AmygdalaSt) (oracle : Nat → OracleStep)
    (cortexId amygId : String) (tagLog : Option String)
    (startIso completedIso now1 now2 : String) :
    ActorRegistry × AmygdalaSt × Option String :=
  let st1 := { st₀ with state := "running", lastStartedAt := startIso, lastError := "" }
  let c1 := compactTagLog tagLog now1
  let st2 := { st1 with tagsPrunedTotal := st1.tagsPrunedTotal + c1.2 }
  let r1 := (r₀.spawn amygdalaConfig (some cortexId) false amygId).2
  let r2 := r1.cleanupTerminated
  let out := roundLoop oracle amygId 0 amygdalaConfig.maxTurns r2 st2
  let r3 := out.1
  let st3 := out.2.1
  let aborted := out.2.2
  let stepA :=
    if aborted then
      let st' := { st3 with lastError := attrErrorMsg }
      match r3.get amygId with
      | some a =>
          if a.state ≠ ActorState.terminated then
            (terminate r3 amygId (some ("Error: " ++ attrErrorMsg)) "", st')
          else (r3, st')
      | none => (r3, st')
    else
      match r3.get amygId with
      | some a =>
          if a.state ≠ ActorState.terminated then
            (terminate r3 amygId
              (some ("Amygdala round complete (turn " ++ toString a.turns ++ ")")) "", st3)
          else (r3, st3)
      | none => (r3, st3)
  let r4 := stepA.1
  let st4 := stepA.2
  let result := orElseStr ((r4.get amygId).bind (fun (a : Actor) => a.result)) "No result"
  let userMessage : Option String := none
  let st5 :=
    { st4 with
      roundsTotal := st4.roundsTotal + 1,
      lastCompletedAt := completedIso,
      lastTurns := ((r4.get amygId).map (fun (a : Actor) => a.turns)).getD 0,
      lastResult := result.take 240,
      lastAlert := match userMessage with
        | some m => m.take 240
        | none => st4.lastAlert,
      state := "idle" }
  let c2 := compactTagLog c1.1 now2
  let st6 := { st5 with tagsPrunedTotal := st5.tagsPrunedTotal + c2.2 }
  (r4, st6, c2.1)

/-! ## Concrete fixtures

Small concrete registries, oracles and file contents used by the concrete
counterexamples and witness theorems below. -/

def emptyRegistry : ActorRegistry := { actors := [], principalId := none }

def butlerConfig : ActorConfig :=
  { name := "butler", group := "main", goals := "Serve the user." }

def rivalConfig : ActorConfig :=
  { name := "butler2", group := "main", goals := "Also serve the user." }

def workerConfig : ActorConfig :=
  { name := "researcher", group := "main", goals := "Research the topic.",
    maxTurns := 2 }

/-- A registry holding one live principal `butler` under the id `cortex`. -/
def cortexReg : ActorRegistry :=
  (emptyRegistry.spawn butlerConfig none true "cortex").2

/-- `cortexReg` with a worker child `researcher` under the id `w1`. -/
def workerReg : ActorRegistry :=
  (cortexReg.spawn workerConfig (some "cortex") false "w1").2

/-- An LLM that, on every turn, sends a `[USER_NOTIFY]` message to the
cortex and terminates its actor (the mock of the amygdala seed
scenario). -/
def alertOracle : Nat → OracleStep := fun _ =>
  { actions := [ToolAction.sendMessage "cortex" "[USER_NOTIFY] deploy failure recurring" "" "m1",
                ToolAction.terminateSelf "alert sent" "n1"],
    response := Except.ok "done" }

/-- An LLM that never calls a tool and always answers `"Still working..."`. -/
def lazyOracle : Nat → OracleStep := fun _ =>
  { actions := [], response := Except.ok "Still working..." }

/-- A single 24001-character line: over the tag-log byte threshold while
holding fewer lines than the keep window. -/
def longLine : String := String.mk (List.replicate 24001 'a')

def sampleTs : String := "2026-02-03 04:05 UTC"

/-- The freshly spawned worker of `workerReg`. -/
def w1Actor : Actor :=
  { id := "w1", config := workerConfig, spawnedBy := "cortex",
    isPrincipal := false, state := ActorState.running,
    inbox := [], messages := [], result := none, turns := 0 }

/-- The worker of `workerReg` after it first terminates with result
`"done"`. -/
def c3Child : Actor :=
  { id := "w1", config := workerConfig, spawnedBy := "cortex",
    isPrincipal := false, state := ActorState.terminated,
    inbox := [], messages := [], result := some "done", turns := 0 }

/-- The first parent notification produced by that termination. -/
def c3Note1 : ActorMessage :=
  { id := "n1", sender := "w1", recipient := "cortex",
    content := "[TERMINATED] researcher finished: done", replyTo := none }

/-- The principal of `workerReg` after receiving the first notification. -/
def c3Parent : Actor :=
  { id := "cortex", config := butlerConfig, spawnedBy := "",
    isPrincipal := true, state := ActorState.running,
    inbox := [c3Note1], messages := [c3Note1], result := none, turns := 0 }

/-- `workerReg` after the worker terminates once with `"done"`. -/
def c3Reg : ActorRegistry := terminate workerReg "w1" (some "done") "n1"

/-- Shorthand constructor for the `ActorMessage` record, used in theorem
statements. -/
def mkMsg (msgId senderId recipientId content : String)
    (replyTo : Option String) : ActorMessage :=
  { id := msgId, sender := senderId, recipient := recipientId,
    content := content, replyTo := replyTo }

/-- The amygdala seed scenario: one full `run_round` against `cortexReg`
with the `[USER_NOTIFY]`-then-terminate mock LLM and no tag-log file. -/
def c2Out : ActorRegistry × AmygdalaSt × Option String :=
  runRound cortexReg amygdalaInitSt alertOracle "cortex" "amyg" none
    "2026-02-03T04:05:00+00:00" "2026-02-03T04:05:07+00:00"
    sampleTs sampleTs

/-- The "later keys win" reading of metadata merging: the value bound to a
key is the one from the last binding across the concatenation of all
metadata dicts in FIFO order. -/
def lastWins (metas : List Meta) (k : String) : Option String :=
  dictGet (List.flatten metas).reverse k

/-- Two concrete pending messages whose metadata share the key `"k"`. -/
def pmA : PendingMessage := { content := "a", metadata := [("k", "1")] }

def pmB : PendingMessage := { content := "b", metadata := [("k", "2"), ("j", "3")] }

/-! ## Lookup lemmas for the registry operations -/

theorem find_modify_self (l : List (String × Actor)) (id : String) (f : Actor → Actor) :
    ((l.map (fun p => if p.1 = id then (p.1, f p.2) else p)).find?
        (fun p => p.1 = id)).map Prod.snd
      = (((l.find? (fun p => p.1 = id)).map Prod.snd).map f) := by
  induction l with
  | nil => simp
  | cons hd tl ih =>
      by_cases h : hd.1 = id
      · simp only [List.map_cons, if_pos h]
        rw [List.find?_cons_of_pos _ (by simpa using h),
          List.find?_cons_of_pos _ (by simpa using h)]
        simp
      · simp only [List.map_cons, if_neg h]
        rw [List.find?_cons_of_neg _ (by simpa using h),
          List.find?_cons_of_neg _ (by simpa using h)]
        exact ih

theorem find_modify_other (l : List (String × Actor)) (id id' : String)
    (f : Actor → Actor) (hne : id' ≠ id) :
    ((l.map (fun p => if p.1 = id then (p.1, f p.2) else p)).find?
        (fun p => p.1 = id')).map Prod.snd
      = (l.find? (fun p => p.1 = id')).map Prod.snd := by
  induction l with
  | nil => simp
  | cons hd tl ih =>
      by_cases h : hd.1 = id
      · have h2 : ¬hd.1 = id' := fun hcontra => hne.symm (h.symm.trans hcontra)
        simp only [List.map_cons, if_pos h]
        rw [List.find?_cons_of_neg _ (by simpa using h2),
          List.find?_cons_of_neg _ (by simpa using h2)]
        exact ih
      · simp only [List.map_cons, if_neg h]
        by_cases h' : hd.1 = id'
        · rw [List.find?_cons_of_pos _ (by simpa using h'),
            List.find?_cons_of_pos _ (by simpa using h')]
        · rw [List.find?_cons_of_neg _ (by simpa using h'),
            List.find?_cons_of_neg _ (by simpa using h')]
          exact ih

theorem get_modify_self (r : ActorRegistry) (id : String) (f : Actor → Actor) :
    (r.modifyActor id f).get id = (r.get id).map f := by
  simpa [ActorRegistry.modifyActor, ActorRegistry.get] using
    find_modify_self r.actors id f

theorem get_modify_other (r : ActorRegistry) (id id' : String) (f : Actor → Actor)
    (hne : id' ≠ id) :
    (r.modifyActor id f).get id' = r.get id' := by
  simpa [ActorRegistry.modifyActor, ActorRegistry.get] using
    find_modify_other r.actors id id' f hne

theorem find_setEntry_self (l : List (String × Actor)) (k : String) (a : Actor) :
    ((setEntry l k a).find? (fun p => p.1 = k)).map Prod.snd = some a := by
  induction l with
  | nil => simp [setEntry]
  | cons hd tl ih =>
      by_cases h : hd.1 = k
      · simp [setEntry, h]
      · simp only [setEntry, if_neg h]
        rw [List.find?_cons_of_neg _ (by simpa using h)]
        exact ih

theorem find_setEntry_other (l : List (String × Actor)) (k k' : String) (a : Actor)
    (hne : k' ≠ k) :
    ((setEntry l k a).find? (fun p => p.1 = k')).map Prod.snd
      = (l.find? (fun p => p.1 = k')).map Prod.snd := by
  induction l with
  | nil =>
      simp only [setEntry]
      rw [List.find?_cons_of_neg _ (by simpa using hne.symm)]
  | cons hd tl ih =>
      by_cases h : hd.1 = k
      · simp only [setEntry, if_pos h]
        rw [List.find?_cons_of_neg _ (by simpa using hne.symm),
          List.find?_cons_of_neg _ (by simpa using fun hc => hne.symm (h.symm.trans hc))]
      · simp only [setEntry, if_neg h]
        by_cases h' : hd.1 = k'
        · rw [List.find?_cons_of_pos _ (by simpa using h'),
            List.find?_cons_of_pos _ (by simpa using h')]
        · rw [List.find?_cons_of_neg _ (by simpa using h'),
            List.find?_cons_of_neg _ (by simpa using h')]
          exact ih

theorem get_spawn_self (r : ActorRegistry) (cfg : ActorConfig) (sb : Option String)
    (ip : Bool) (newId : String) :
    (r.spawn cfg sb ip newId).2.get newId = some (r.spawn cfg sb ip newId).1 := by
  simpa [ActorRegistry.spawn, ActorRegistry.get] using
    find_setEntry_self r.actors newId _

theorem get_spawn_other (r : ActorRegistry) (cfg : ActorConfig) (sb : Option String)
    (ip : Bool) (newId id : String) (hne : id ≠ newId) :
    (r.spawn cfg sb ip newId).2.get id = r.get id := by
  simpa [ActorRegistry.spawn, ActorRegistry.get] using
    find_setEntry_other r.actors newId id _ hne

theorem get_deliver_self (r : ActorRegistry) (id : String) (msg : ActorMessage) :
    (r.deliver id msg).get id =
      (r.get id).map
        (fun b => { b with messages := b.messages ++ [msg], inbox := b.inbox ++ [msg] }) :=
  get_modify_self r id _

theorem get_deliver_other (r : ActorRegistry) (id id' : String) (msg : ActorMessage)
    (hne : id' ≠ id) :
    (r.deliver id msg).get id' = r.get id' :=
  get_modify_other r id id' _ hne

/-! ## Claim C1 — second principal spawn -/

/-- Claim C1 (counterexample): spawning a second principal while the first
is live does not fail — `ActorRegistry.spawn` has no conflict check and no
`PrincipalConflict` exists anywhere in the code — and `get_principal`
afterwards returns the second actor, not the first: the registry silently
reassigns the principal. -/
theorem c1_counterexample :
    (emptyRegistry.spawn butlerConfig none true "p1").2.getPrincipal
        = some (emptyRegistry.spawn butlerConfig none true "p1").1 ∧
      (emptyRegistry.spawn butlerConfig none true "p1").1.state
        ≠ ActorState.terminated ∧
      ((emptyRegistry.spawn butlerConfig none true "p1").2.spawn
          rivalConfig none true "p2").2.getPrincipal
        ≠ some (emptyRegistry.spawn butlerConfig none true "p1").1 ∧
      ((emptyRegistry.spawn butlerConfig none true "p1").2.spawn
          rivalConfig none true "p2").2.getPrincipal
        = some ((emptyRegistry.spawn butlerConfig none true "p1").2.spawn
            rivalConfig none true "p2").1 := by
  decide

/-- Claim C1 (amended): while a principal `p` (registered under
`_principal_id = pid`) is live, a second call to `spawn` with
`is_principal=true` succeeds — no error is raised — overwrites
`_principal_id` so that `get_principal` returns the newly spawned actor
(which carries `is_principal=true`), and leaves the first principal
registered and unchanged. -/
theorem c1_spawn_principal_reassigns (r : ActorRegistry) (cfg : ActorConfig)
    (sb : Option String) (newId pid : String) (p : Actor)
    (_hpid : r.principalId = some pid) (hp : r.get pid = some p)
    (_hlive : p.state ≠ ActorState.terminated)
    (hfresh : r.get newId = none) :
    (r.spawn cfg sb true newId).2.getPrincipal = some (r.spawn cfg sb true newId).1 ∧
      (r.spawn cfg sb true newId).1.isPrincipal = true ∧
      (r.spawn cfg sb true newId).2.get pid = some p := by
  have hne : pid ≠ newId := by
    intro h
    rw [h, hfresh] at hp
    exact Option.noConfusion hp
  refine ⟨?_, rfl, ?_⟩
  · have hprin : (r.spawn cfg sb true newId).2.principalId = some newId := rfl
    rw [ActorRegistry.getPrincipal, hprin]
    exact get_spawn_self r cfg sb true newId
  · rw [get_spawn_other r cfg sb true newId pid hne]
    exact hp

/-- Witness for `c1_spawn_principal_reassigns` at a concrete registry. -/
theorem c1_spawn_principal_reassigns_witness :
    (cortexReg.spawn rivalConfig none true "p2").2.getPrincipal
        = some (cortexReg.spawn rivalConfig none true "p2").1 ∧
      (cortexReg.spawn rivalConfig none true "p2").1.isPrincipal = true ∧
      (cortexReg.spawn rivalConfig none true "p2").2.get "cortex"
        = some (emptyRegistry.spawn butlerConfig none true "cortex").1 :=
  c1_spawn_principal_reassigns cortexReg rivalConfig none "p2" "cortex" _
    rfl rfl (by decide) rfl

/-! ## Claim C3 — terminate is not idempotent -/

/-- Claim C3 (counterexample): after the worker has terminated with result
`"done"`, a second `terminate("second")` is not a no-op — the stored result
changes to `"second"` and the still-running parent receives a second
`[TERMINATED]` message (two in total for one child). -/
theorem c3_counterexample :
    ((terminate c3Reg "w1" (some "second") "n2").get "w1").bind
        (fun (a : Actor) => a.result) ≠ some "done" ∧
      ((terminate c3Reg "w1" (some "second") "n2").get "w1").bind
        (fun (a : Actor) => a.result) = some "second" ∧
      ((terminate c3Reg "w1" (some "second") "n2").get "cortex").map
        (fun (a : Actor) =>
          (a.messages.filter
            (fun m => pyStartswith "[TERMINATED]" m.content)).length) = some 2 := by
  decide

/-- Claim C3 (amended): `Actor.terminate` carries no idempotence guard.
For an actor already in state Terminated, a second `terminate(res')` (with
`res'` non-empty) overwrites the stored result with `res'`, and — because
`_on_actor_terminated` re-runs — enqueues a fresh
`"[TERMINATED] <name> finished: <res'>"` message to a Running parent's
history and inbox, so a parent can receive more than one `[TERMINATED]`
message per child. -/
theorem c3_terminate_overwrites (r : ActorRegistry) (cid parid res' nid : String)
    (c par : Actor)
    (hc : r.get cid = some c) (_hterm : c.state = ActorState.terminated)
    (hpar : c.spawnedBy = parid) (hpid : parid ≠ "")
    (hpp : r.get parid = some par) (hrun : par.state = ActorState.running)
    (hne : parid ≠ cid) (hres : res' ≠ "") :
    (terminate r cid (some res') nid).get cid
        = some { c with result := some res', state := ActorState.terminated } ∧
      (terminate r cid (some res') nid).get parid
        = some { par with
            messages := par.messages ++
              [mkMsg nid cid parid
                ("[TERMINATED] " ++ c.config.name ++ " finished: " ++ res') none],
            inbox := par.inbox ++
              [mkMsg nid cid parid
                ("[TERMINATED] " ++ c.config.name ++ " finished: " ++ res') none] } := by
  have hornone : orElseStr (some res') ("Actor " ++ c.config.name ++ " terminated")
      = res' := by
    simp [orElseStr, hres]
  have hmsg : orElseStr (some res') "no result" = res' := by
    simp [orElseStr, hres]
  have key : terminate r cid (some res') nid
      = (r.modifyActor cid
          (fun x => { x with result := some res', state := ActorState.terminated })).deliver
          parid
          (mkMsg nid cid parid
            ("[TERMINATED] " ++ c.config.name ++ " finished: " ++ res') none) := by
    rw [terminate, hc]
    dsimp only
    rw [hornone, ActorRegistry.onActorTerminated, get_modify_self, hc]
    dsimp only [Option.map_some']
    rw [hpar, if_neg hpid, get_modify_other r cid parid _ hne, hpp]
    dsimp only
    rw [if_pos hrun, hmsg]
    rfl
  constructor
  · rw [key, get_deliver_other _ _ _ _ hne.symm, get_modify_self, hc]
    rfl
  · rw [key, get_deliver_self, get_modify_other r cid parid _ hne, hpp]
    rfl

/-- Witness for `c3_terminate_overwrites` on the concrete doubly-terminated
worker. -/
theorem c3_terminate_overwrites_witness :
    (terminate c3Reg "w1" (some "second") "n2").get "w1"
        = some { c3Child with
                 result := some "second", state := ActorState.terminated } ∧
      (terminate c3Reg "w1" (some "second") "n2").get "cortex"
        = some { c3Parent with
            messages := c3Parent.messages ++
              [mkMsg "n2" "w1" "cortex"
                "[TERMINATED] researcher finished: second" none],
            inbox := c3Parent.inbox ++
              [mkMsg "n2" "w1" "cortex"
                "[TERMINATED] researcher finished: second" none] } := by
  have h := c3_terminate_overwrites c3Reg "w1" "cortex" "second" "n2"
    c3Child c3Parent (by decide) (by decide) (by decide) (by decide)
    (by decide) (by decide) (by decide) (by decide)
  refine ⟨?_, ?_⟩
  · rw [h.1]
  · rw [h.2]
    decide

/-! ## Claim C9 — send_to atomicity and the self-send double append -/

/-- Claim C9 (counterexample): `send_to` succeeding with the sender as its
own recipient appends the constructed message to the sender's history
twice (once in `recipient.send`, once in the trailing
`self._messages.append`), not exactly once as claimed. -/
theorem c9_counterexample :
    (sendTo cortexReg "cortex" "cortex" "hi" none "m1").1
        = Except.ok (mkMsg "m1" "cortex" "cortex" "hi" none) ∧
      ((sendTo cortexReg "cortex" "cortex" "hi" none "m1").2.get "cortex").map
        (fun (a : Actor) =>
          (a.messages.filter
            (fun m => m = mkMsg "m1" "cortex" "cortex" "hi" none)).length)
        = some 2 := by
  decide

/-- Claim C9 (amended): `send_to` to an unknown recipient raises and leaves
the registry — every history and every inbox — untouched (the constructed
message is recorded nowhere); on success with a recipient distinct from the
sender, the message is appended to the sender's history exactly once (and
to the recipient's history and inbox exactly once); a self-send, however,
appends it to the sender's history twice. -/
theorem c9_send_to_atomic (r : ActorRegistry) (sid rid content : String)
    (rto : Option String) (mid : String) :
    (r.get rid = none →
        sendTo r sid rid content rto mid
          = (Except.error ("Actor " ++ rid ++ " not found"), r)) ∧
      (∀ a b, r.get sid = some a → r.get rid = some b → sid ≠ rid →
        (sendTo r sid rid content rto mid).1
            = Except.ok (mkMsg mid sid rid content rto) ∧
          (sendTo r sid rid content rto mid).2.get sid
            = some { a with
                messages := a.messages ++ [mkMsg mid sid rid content rto] } ∧
          (sendTo r sid rid content rto mid).2.get rid
            = some { b with
                messages := b.messages ++ [mkMsg mid sid rid content rto],
                inbox := b.inbox ++ [mkMsg mid sid rid content rto] }) := by
  constructor
  · intro hnone
    rw [sendTo, hnone]
  · intro a b ha hb hne
    refine ⟨?_, ?_, ?_⟩
    · rw [sendTo, hb]
      dsimp only
      simp [mkMsg]
    · rw [sendTo, hb]
      dsimp only
      rw [get_modify_self, get_deliver_other _ _ _ _ hne, ha]
      simp [mkMsg]
    · rw [sendTo, hb]
      dsimp only
      rw [get_modify_other _ _ _ _ hne.symm, get_deliver_self, hb]
      simp [mkMsg]

/-- Witness for `c9_send_to_atomic`: both branches at concrete inputs —
an unknown recipient on `cortexReg`, and a principal-to-worker send on
`workerReg`. -/
theorem c9_send_to_atomic_witness :
    sendTo cortexReg "cortex" "ghost" "hi" none "m1"
        = (Except.error "Actor ghost not found", cortexReg) ∧
      (sendTo workerReg "cortex" "w1" "hello" none "m2").1
        = Except.ok (mkMsg "m2" "cortex" "w1" "hello" none) := by
  have h1 := (c9_send_to_atomic cortexReg "cortex" "ghost" "hi" none "m1").1 (by decide)
  have h2 := ((c9_send_to_atomic workerReg "cortex" "w1" "hello" none "m2").2
    ((workerReg.get "cortex").getD c3Parent) ((workerReg.get "w1").getD c3Child)
    (by decide) (by decide) (by decide)).1
  refine ⟨?_, h2⟩
  rw [h1]
  rfl

/-! ## Claim C10 — send_to ignores the recipient's lifecycle state -/

/-- Claim C10: `Actor.send_to` performs no lifecycle check — a send to a
registered but Terminated recipient succeeds and lands in the recipient's
inbox and history — while the `send_message` tool wrapper rejects the same
recipient with an error string and delivers nothing (the registry is
returned unchanged). -/
theorem c10_send_to_ignores_state (r : ActorRegistry) (aid bid content mid : String)
    (b : Actor) (hb : r.get bid = some b)
    (hterm : b.state = ActorState.terminated) (hne : aid ≠ bid) :
    (sendTo r aid bid content none mid).1
        = Except.ok (mkMsg mid aid bid content none) ∧
      (sendTo r aid bid content none mid).2.get bid
        = some { b with
            messages := b.messages ++ [mkMsg mid aid bid content none],
            inbox := b.inbox ++ [mkMsg mid aid bid content none] } ∧
      sendMessageTool r aid bid content "" mid
        = ("Error: actor " ++ bid ++ " (" ++ b.config.name ++ ") is terminated.", r) := by
  refine ⟨?_, ?_, ?_⟩
  · rw [sendTo, hb]
    dsimp only
    simp [mkMsg]
  · rw [sendTo, hb]
    dsimp only
    rw [get_modify_other _ _ _ _ hne.symm, get_deliver_self, hb]
    simp [mkMsg]
  · rw [sendMessageTool, hb]
    simp [hterm]

/-- Witness for `c10_send_to_ignores_state` on the terminated worker of
`c3Reg`. -/
theorem c10_send_to_ignores_state_witness :
    (sendTo c3Reg "cortex" "w1" "Are you there?" none "m3").1
        = Except.ok (mkMsg "m3" "cortex" "w1" "Are you there?" none) ∧
      (sendTo c3Reg "cortex" "w1" "Are you there?" none "m3").2.get "w1"
        = some { c3Child with
            messages := c3Child.messages ++
              [mkMsg "m3" "cortex" "w1" "Are you there?" none],
            inbox := c3Child.inbox ++
              [mkMsg "m3" "cortex" "w1" "Are you there?" none] } ∧
      sendMessageTool c3Reg "cortex" "w1" "Are you there?" "" "m3"
        = ("Error: actor w1 (researcher) is terminated.", c3Reg) := by
  have h := c10_send_to_ignores_state c3Reg "cortex" "w1" "Are you there?" "m3"
    c3Child (by decide) (by decide) (by decide)
  refine ⟨h.1, h.2.1, ?_⟩
  rw [h.2.2]
  rfl

/-! ## Claim C7 — message coalescing -/

theorem dictGet_setItem_self (d : Meta) (k v : String) :
    dictGet (setItem d k v) k = some v := by
  induction d with
  | nil => simp [setItem, dictGet]
  | cons hd tl ih =>
      by_cases h : hd.1 = k
      · simp [setItem, h, dictGet]
      · simp only [setItem, if_neg h, dictGet]
        rw [List.find?_cons_of_neg _ (by simpa using h)]
        exact ih

theorem dictGet_setItem_other (d : Meta) (k v k' : String) (hne : k' ≠ k) :
    dictGet (setItem d k v) k' = dictGet d k' := by
  induction d with
  | nil =>
      simp only [setItem, dictGet]
      rw [List.find?_cons_of_neg _ (by simpa using hne.symm)]
  | cons hd tl ih =>
      by_cases h : hd.1 = k
      · simp only [setItem, if_pos h, dictGet]
        rw [List.find?_cons_of_neg _ (by simpa using hne.symm),
          List.find?_cons_of_neg _ (by simpa using fun hc => hne.symm (h.symm.trans hc))]
      · simp only [setItem, if_neg h, dictGet]
        by_cases h' : hd.1 = k'
        · rw [List.find?_cons_of_pos _ (by simpa using h'),
            List.find?_cons_of_pos _ (by simpa using h')]
        · rw [List.find?_cons_of_neg _ (by simpa using h'),
            List.find?_cons_of_neg _ (by simpa using h')]
          exact ih

theorem dictGet_append (l1 l2 : Meta) (k : String) :
    dictGet (l1 ++ l2) k
      = match dictGet l1 k with
        | some v => some v
        | none => dictGet l2 k := by
  induction l1 with
  | nil => simp [dictGet]
  | cons hd tl ih =>
      by_cases h : hd.1 = k
      · simp only [List.cons_append, dictGet]
        rw [List.find?_cons_of_pos _ (by simpa using h),
          List.find?_cons_of_pos _ (by simpa using h)]
        rfl
      · simp only [List.cons_append, dictGet]
        rw [List.find?_cons_of_neg _ (by simpa using h),
          List.find?_cons_of_neg _ (by simpa using h)]
        exact ih

theorem dictGet_dictUpdate (u : Meta) (d : Meta) (k : String) :
    dictGet (dictUpdate d u) k
      = match dictGet u.reverse k with
        | some v => some v
        | none => dictGet d k := by
  induction u generalizing d with
  | nil => simp [dictUpdate, dictGet]
  | cons p u' ih =>
      have step : dictUpdate d (p :: u') = dictUpdate (setItem d p.1 p.2) u' := rfl
      rw [step, ih]
      have hrev : (p :: u').reverse = u'.reverse ++ [p] := by simp
      rw [hrev, dictGet_append]
      cases hfind : dictGet u'.reverse k with
      | some v => rfl
      | none =>
          by_cases hk : k = p.1
          · subst hk
            rw [dictGet_setItem_self]
            simp [dictGet]
          · rw [dictGet_setItem_other d p.1 p.2 k hk]
            have : dictGet [p] k = none := by
              simp only [dictGet]
              rw [List.find?_cons_of_neg _ (by simpa using fun hc => hk hc.symm)]
              rfl
            rw [this]

theorem dictGet_fold (metas : List Meta) (init : Meta) (k : String) :
    dictGet (metas.foldl dictUpdate init) k
      = match dictGet (List.flatten metas).reverse k with
        | some v => some v
        | none => dictGet init k := by
  induction metas generalizing init with
  | nil => simp [dictGet]
  | cons u ms ih =>
      rw [List.foldl_cons, ih, List.flatten_cons]
      rw [List.reverse_append, dictGet_append]
      rw [dictGet_dictUpdate]
      cases hms : dictGet (List.flatten ms).reverse k with
      | some v => rfl
      | none => rfl

/-- Claim C7: with k ≥ 2 pending messages, `get_combined_message` joins the
contents in FIFO order with the literal separator, merges the metadata
dicts in FIFO order so that a key's value comes from the last message
binding it (`lastWins`), and clears the pending list; with exactly one
pending message it returns that message's content and metadata as-is (and
the pop also leaves the pending list empty). -/
theorem c7_get_combined_message (pending : List PendingMessage) :
    (∀ m1 m2 rest, pending = m1 :: m2 :: rest →
        getCombinedMessage pending
            = ((pyJoin combineSeparator (pending.map (·.content)),
                pending.foldl (fun acc m => dictUpdate acc m.metadata) []), []) ∧
          ∀ k, dictGet
              ((getCombinedMessage pending).1.2) k
              = lastWins (pending.map (·.metadata)) k) ∧
      (∀ m, pending = [m] →
        getCombinedMessage pending = ((m.content, m.metadata), [])) := by
  constructor
  · rintro m1 m2 rest rfl
    constructor
    · rfl
    · intro k
      show dictGet ((m1 :: m2 :: rest).foldl
        (fun acc m => dictUpdate acc m.metadata) []) k = _
      have hfold : (m1 :: m2 :: rest).foldl (fun acc m => dictUpdate acc m.metadata) []
          = ((m1 :: m2 :: rest).map (·.metadata)).foldl dictUpdate [] := by
        rw [List.foldl_map]
      rw [hfold, dictGet_fold]
      unfold lastWins
      cases h : dictGet (List.flatten ((m1 :: m2 :: rest).map (·.metadata))).reverse k with
      | some v => rfl
      | none => simp [dictGet]
  · rintro m rfl
    rfl

/-- Witness for `c7_get_combined_message` on two concrete messages sharing
the metadata key `"k"`, and on a single pending message. -/
theorem c7_get_combined_message_witness :
    getCombinedMessage [pmA, pmB]
        = (("a" ++ combineSeparator ++ "b", [("k", "2"), ("j", "3")]), []) ∧
      dictGet (getCombinedMessage [pmA, pmB]).1.2 "k"
        = lastWins [pmA.metadata, pmB.metadata] "k" ∧
      dictGet (getCombinedMessage [pmA, pmB]).1.2 "k" = some "2" ∧
      getCombinedMessage [pmA] = ((pmA.content, pmA.metadata), []) := by
  have h := c7_get_combined_message [pmA, pmB]
  have h1 := h.1 pmA pmB [] rfl
  have h2 := (c7_get_combined_message [pmA]).2 pmA rfl
  refine ⟨?_, ?_, by decide, h2⟩
  · rw [h1.1]
    decide
  · exact h1.2 "k"

/-! ## Claim C4 — response judgment rules -/

/-- Claim C4 (counterexample): for a non-empty response the flags parsed
from the model are returned unchecked — here the model answers
`send_to_user=false, continue_task=true` and `judge_response` returns
exactly that, although `is_continuation` (the only flag the caller passes)
is false.  The "send false forces continue false" rule exists only in the
prompt text, not in code. -/
theorem c4_counterexample :
    judgeResponse true false "req" "Working on it" 1 false
        (some { sendToUser := false, continueTask := true, reason := "keep going" })
      = { sendToUser := false, continueTask := true, reason := "keep going" } := by
  decide

/-- Claim C4 (amended): when the manager is enabled and the agent-creation
call does not raise, the two empty-response rules are enforced in code
(`iteration ≤ 2` forces `send=false, continue=true`; `iteration > 2`
forces both false); when disabled or on an exception the default
`send=true, continue=false` is returned; and for every non-empty response
the parsed model output is returned as-is, with no enforcement tying
`continue_task` to `send_to_user`. -/
theorem c4_judge_response_rules (enabled lf : Bool) (req resp : String)
    (iter : Int) (isCont : Bool) (modelOut : Option JudgeResult) :
    (enabled = true → lf = false → resp = "" → iter ≤ 2 →
        judgeResponse enabled lf req resp iter isCont modelOut
          = { sendToUser := false, continueTask := true,
              reason := "no response early iteration" }) ∧
      (enabled = true → lf = false → resp = "" → 2 < iter →
        judgeResponse enabled lf req resp iter isCont modelOut
          = { sendToUser := false, continueTask := false,
              reason := "no response late iteration" }) ∧
      (enabled = true → lf = false → resp ≠ "" →
        judgeResponse enabled lf req resp iter isCont modelOut
          = modelOut.getD judgeDefault) ∧
      (enabled = false ∨ lf = true →
        judgeResponse enabled lf req resp iter isCont modelOut = judgeDefault) := by
  refine ⟨?_, ?_, ?_, ?_⟩
  · rintro rfl rfl rfl hle
    simp [judgeResponse, hle]
  · rintro rfl rfl rfl hgt
    simp [judgeResponse, not_le.mpr hgt]
  · rintro rfl rfl hne
    cases modelOut with
    | none => simp [judgeResponse, hne, Option.getD]
    | some out => simp [judgeResponse, hne, Option.getD]
  · rintro (rfl | rfl)
    · simp [judgeResponse]
    · cases enabled <;> simp [judgeResponse]

/-- Witness for `c4_judge_response_rules`: all four branches at concrete
inputs. -/
theorem c4_judge_response_rules_witness :
    judgeResponse true false "req" "" 1 false none
        = { sendToUser := false, continueTask := true,
            reason := "no response early iteration" } ∧
      judgeResponse true false "req" "" 5 false none
        = { sendToUser := false, continueTask := false,
            reason := "no response late iteration" } ∧
      judgeResponse true false "req" "All done." 0 true
          (some { sendToUser := true, continueTask := false, reason := "answered" })
        = (some { sendToUser := true, continueTask := false,
                  reason := "answered" }).getD judgeDefault ∧
      judgeResponse false false "req" "" 1 false none = judgeDefault := by
  refine ⟨?_, ?_, ?_, ?_⟩
  · exact (c4_judge_response_rules true false "req" "" 1 false none).1
      rfl rfl rfl (by decide)
  · exact (c4_judge_response_rules true false "req" "" 5 false none).2.1
      rfl rfl rfl (by decide)
  · exact (c4_judge_response_rules true false "req" "All done." 0 true _).2.2.1
      rfl rfl (by decide)
  · exact (c4_judge_response_rules false false "req" "" 1 false none).2.2.2
      (Or.inl rfl)

/-! ## Rational-arithmetic bridge lemmas

`Rat` arithmetic does not reduce inside the kernel, so the concrete
seed-tag computations are settled through `norm_num` after rewriting the
executable comparisons and the executable floor into their order-theoretic
counterparts. -/

theorem pyMin_def (a b : ℚ) : pyMin a b = if b < a then b else a := by
  unfold pyMin
  by_cases h : b < a
  · rw [if_pos (show Rat.blt b a = true from h), if_pos h]
  · rw [if_neg (show ¬Rat.blt b a = true from h), if_neg h]

theorem pyMax_def (a b : ℚ) : pyMax a b = if a < b then b else a := by
  unfold pyMax
  by_cases h : a < b
  · rw [if_pos (show Rat.blt a b = true from h), if_pos h]
  · rw [if_neg (show ¬Rat.blt a b = true from h), if_neg h]

theorem ratFloor_eq (a : ℚ) : Rat.floor a = ⌊a⌋ := by
  rw [Rat.floor_def', Rat.floor_def]

theorem floor_half : ⌊((1 : ℚ) / 2)⌋ = 0 := by
  rw [show ((1 : ℚ) / 2) = ((1 : ℤ) : ℚ) / ((2 : ℕ) : ℚ) by norm_num,
    Rat.floor_intCast_div_natCast]
  decide

theorem round2_exact (q : ℚ) (n : ℤ) (h : q * 100 = (n : ℚ)) : round2 q = q := by
  rw [round2, ratFloor_eq, h, Int.floor_int_add, floor_half]
  have hn : ((n : ℚ)) = q * 100 := h.symm
  push_cast
  rw [hn]
  ring

theorem round2_neg_tenth : round2 (-(1 / 10) : ℚ) = -(1 / 10) :=
  round2_exact _ (-10) (by norm_num)

theorem round2_neg_six_tenths : round2 (-(3 / 5) : ℚ) = -(3 / 5) :=
  round2_exact _ (-60) (by norm_num)

theorem round2_clamp01_bounds (x : ℚ) :
    0 ≤ round2 (pyMax 0 (pyMin 1 x)) ∧ round2 (pyMax 0 (pyMin 1 x)) ≤ 1 := by
  have hy : 0 ≤ pyMax 0 (pyMin 1 x) ∧ pyMax 0 (pyMin 1 x) ≤ 1 := by
    rw [pyMax_def, pyMin_def]
    split_ifs <;> constructor <;> linarith
  rw [round2, ratFloor_eq]
  set y := pyMax 0 (pyMin 1 x)
  have h1 : (0 : ℤ) ≤ ⌊y * 100 + 1 / 2⌋ := by
    apply Int.le_floor.mpr
    push_cast
    nlinarith [hy.1]
  have h2 : ⌊y * 100 + 1 / 2⌋ ≤ 100 := by
    have hfl : ((⌊y * 100 + 1 / 2⌋ : ℤ) : ℚ) ≤ y * 100 + 1 / 2 := Int.floor_le _
    have hub : ((⌊y * 100 + 1 / 2⌋ : ℤ) : ℚ) < 101 := by nlinarith [hy.2]
    have : ⌊y * 100 + 1 / 2⌋ < 101 := by exact_mod_cast hub
    omega
  constructor
  · apply div_nonneg _ (by norm_num)
    exact_mod_cast h1
  · rw [div_le_one (by norm_num : (0 : ℚ) < 100)]
    exact_mod_cast h2

theorem round2_clampPM1_bounds (x : ℚ) :
    -1 ≤ round2 (pyMax (-1) (pyMin 1 x)) ∧ round2 (pyMax (-1) (pyMin 1 x)) ≤ 1 := by
  have hy : -1 ≤ pyMax (-1) (pyMin 1 x) ∧ pyMax (-1) (pyMin 1 x) ≤ 1 := by
    rw [pyMax_def, pyMin_def]
    split_ifs <;> constructor <;> linarith
  rw [round2, ratFloor_eq]
  set y := pyMax (-1) (pyMin 1 x)
  have h1 : (-100 : ℤ) ≤ ⌊y * 100 + 1 / 2⌋ := by
    apply Int.le_floor.mpr
    push_cast
    nlinarith [hy.1]
  have h2 : ⌊y * 100 + 1 / 2⌋ ≤ 100 := by
    have hfl : ((⌊y * 100 + 1 / 2⌋ : ℤ) : ℚ) ≤ y * 100 + 1 / 2 := Int.floor_le _
    have hub : ((⌊y * 100 + 1 / 2⌋ : ℤ) : ℚ) < 101 := by nlinarith [hy.2]
    have : ⌊y * 100 + 1 / 2⌋ < 101 := by exact_mod_cast hub
    omega
  constructor
  · rw [le_div_iff₀ (by norm_num : (0 : ℚ) < 100)]
    have : ((-100 : ℤ) : ℚ) ≤ (⌊y * 100 + 1 / 2⌋ : ℤ) := by exact_mod_cast h1
    push_cast at this ⊢
    linarith
  · rw [div_le_one (by norm_num : (0 : ℚ) < 100)]
    exact_mod_cast h2

theorem round2_nonneg (q : ℚ) (h : 0 ≤ q) : 0 ≤ round2 q := by
  rw [round2, ratFloor_eq]
  apply div_nonneg _ (by norm_num)
  have h1 : (0 : ℤ) ≤ ⌊q * 100 + 1 / 2⌋ := by
    apply Int.le_floor.mpr
    push_cast
    nlinarith
  exact_mod_cast h1

theorem round2_le_one (q : ℚ) (h : q ≤ 1) : round2 q ≤ 1 := by
  rw [round2, ratFloor_eq]
  rw [div_le_one (by norm_num : (0 : ℚ) < 100)]
  have hfl : ((⌊q * 100 + 1 / 2⌋ : ℤ) : ℚ) ≤ q * 100 + 1 / 2 := Int.floor_le _
  have hub : ((⌊q * 100 + 1 / 2⌋ : ℤ) : ℚ) < 101 := by nlinarith
  have h2 : ⌊q * 100 + 1 / 2⌋ < 101 := by exact_mod_cast hub
  have h3 : ⌊q * 100 + 1 / 2⌋ ≤ 100 := by omega
  exact_mod_cast h3

theorem round2_ge_negone (q : ℚ) (h : -1 ≤ q) : -1 ≤ round2 q := by
  rw [round2, ratFloor_eq]
  rw [le_div_iff₀ (by norm_num : (0 : ℚ) < 100)]
  have h1 : (-100 : ℤ) ≤ ⌊q * 100 + 1 / 2⌋ := by
    apply Int.le_floor.mpr
    push_cast
    nlinarith
  have : ((-100 : ℤ) : ℚ) ≤ ((⌊q * 100 + 1 / 2⌋ : ℤ) : ℚ) := by exact_mod_cast h1
  push_cast at this
  linarith

/-! ## Claim C6 — the mixed/ironic override -/

/-- Claim C6 (counterexample): for the line
`"great but still waiting"` — a positive cue (`great`) with contrast cues
(`" but "`, `" still "`) and no negative cue — the override *subtracts*
`0.6` from the `+0.5` positive contribution, so the emitted valence is
`-0.1`, not `-0.6` as the claim states. -/
theorem c6_counterexample :
    hasPositiveCue (pyLower "great but still waiting") = true ∧
      hasContrastCue (pyLower "great but still waiting") = true ∧
      hasNegativeCue (pyLower "great but still waiting") = false ∧
      (seedRecord "great but still waiting").tags.contains "mixed_or_ironic" = true ∧
      (seedRecord "great but still waiting").valence = -1 / 10 ∧
      ¬(seedRecord "great but still waiting").valence = -6 / 10 := by
  have hu : hasUrgencyCue (pyLower "great but still waiting") = false := by decide
  have hn : hasNegativeCue (pyLower "great but still waiting") = false := by decide
  have hp : hasPositiveCue (pyLower "great but still waiting") = true := by decide
  have hcn : hasContrastCue (pyLower "great but still waiting") = true := by decide
  have hs : hasSarcasmCue (pyLower "great but still waiting") = false := by decide
  have hr : hasRiskCue (pyLower "great but still waiting") = false := by decide
  have hval : (seedRecord "great but still waiting").valence = -1 / 10 := by
    simp [seedRecord, hu, hn, hp, hcn, hs, hr]
    norm_num [pyMin_def, pyMax_def, round2_neg_tenth]
  refine ⟨hp, hcn, hn, ?_, hval, by rw [hval]; norm_num⟩
  simp [seedRecord, hu, hn, hp, hcn, hs, hr]

set_option maxHeartbeats 1600000 in
/-- Claim C6 (amended): for every signal line with a positive-affect cue
together with a negation/contrast/sarcasm cue, the emitted record carries
the tag `mixed_or_ironic`, its valence is `0.6` *lower* than what the
affect cues alone yield — exactly `-0.6` when a negative-affect cue is also
present, and `-0.1` otherwise — its arousal is the clamped sum of the other
cue contributions plus `0.1`, and the final valence lies in `[-1, 1]` and
the final arousal in `[0, 1]`. -/
theorem c6_mixed_override (line : String)
    (hpos : hasPositiveCue (pyLower line) = true)
    (hmix : hasNegativeCue (pyLower line) = true ∨ hasContrastCue (pyLower line) = true
      ∨ hasSarcasmCue (pyLower line) = true) :
    (seedRecord line).tags.contains "mixed_or_ironic" = true ∧
      (seedRecord line).valence
        = (if hasNegativeCue (pyLower line) then (-6 : ℚ) / 10 else -1 / 10) ∧
      (seedRecord line).arousal
        = round2 (pyMax 0 (pyMin 1
            ((2 : ℚ) / 10 + (if hasUrgencyCue (pyLower line) then (4 : ℚ) / 10 else 0)
              + (if hasNegativeCue (pyLower line) then (25 : ℚ) / 100 else 0)
              + 1 / 10
              + (if hasRiskCue (pyLower line) then (2 : ℚ) / 10 else 0)))) ∧
      -1 ≤ (seedRecord line).valence ∧ (seedRecord line).valence ≤ 1 ∧
      0 ≤ (seedRecord line).arousal ∧ (seedRecord line).arousal ≤ 1 := by
  cases hurg : hasUrgencyCue (pyLower line) <;>
    cases hneg : hasNegativeCue (pyLower line) <;>
      cases hcs : hasContrastCue (pyLower line) || hasSarcasmCue (pyLower line) <;>
        cases hrisk : hasRiskCue (pyLower line) <;>
          first
          | (refine ⟨?_, ?_, ?_, ?_, ?_, ?_, ?_⟩ <;>
              first
              | (simp [seedRecord, hpos, hurg, hneg, hcs, hrisk]
                 done)
              | (simp [seedRecord, hpos, hurg, hneg, hcs, hrisk]
                 first
                 | (norm_num [pyMin_def, pyMax_def, round2_neg_tenth]
                    done)
                 | (norm_num [pyMin_def, pyMax_def, round2_neg_six_tenths]
                    done)
                 | exact round2_ge_negone _ (by norm_num [pyMax_def, pyMin_def])
                 | exact round2_nonneg _ (by norm_num [pyMax_def, pyMin_def])
                 | exact round2_le_one _ (by norm_num [pyMax_def, pyMin_def])))
          | (rcases hmix with h | h | h <;> simp_all)

/-- Witness for `c6_mixed_override` on the line
`"deploy failed but we are good now"` (urgency, negative, positive and
contrast cues all present). -/
theorem c6_mixed_override_witness :
    (seedRecord "deploy failed but we are good now").tags.contains
        "mixed_or_ironic" = true ∧
      (seedRecord "deploy failed but we are good now").valence
        = (if hasNegativeCue (pyLower "deploy failed but we are good now")
            then (-6 : ℚ) / 10 else -1 / 10) ∧
      (seedRecord "deploy failed but we are good now").arousal
        = round2 (pyMax 0 (pyMin 1
            ((2 : ℚ) / 10
              + (if hasUrgencyCue (pyLower "deploy failed but we are good now")
                  then (4 : ℚ) / 10 else 0)
              + (if hasNegativeCue (pyLower "deploy failed but we are good now")
                  then (25 : ℚ) / 100 else 0)
              + 1 / 10
              + (if hasRiskCue (pyLower "deploy failed but we are good now")
                  then (2 : ℚ) / 10 else 0)))) ∧
      -1 ≤ (seedRecord "deploy failed but we are good now").valence ∧
      (seedRecord "deploy failed but we are good now").valence ≤ 1 ∧
      0 ≤ (seedRecord "deploy failed but we are good now").arousal ∧
      (seedRecord "deploy failed but we are good now").arousal ≤ 1 :=
  c6_mixed_override "deploy failed but we are good now" (by decide)
    (Or.inl (by decide))

/-! ## Claim C2 — the heartbeat round and `registry.events` -/

/-- Claim C2 (code bug): in the seed scenario — the internal amygdala actor
sends `"[USER_NOTIFY] deploy failure recurring"` to the principal during
its first chat turn and terminates — the principal's inbox does receive the
notification, and `rounds_total` is incremented by exactly one, but
`run_round` then evaluates `self.registry.events`, an attribute that exists
nowhere in the repository, so the round aborts with an `AttributeError`:
`last_error` ends up non-empty and `last_alert` is never written (the
`_extract_user_notification` fallback the spec describes is dead code
behind the failing attribute access). -/
theorem c2_run_round_attribute_error_eval :
    c2Out.2.1.lastAlert = "" ∧
      c2Out.2.1.lastError = "'ActorRegistry' object has no attribute 'events'" ∧
      c2Out.2.1.roundsTotal = amygdalaInitSt.roundsTotal + 1 ∧
      c2Out.2.1.lastTurns = 1 ∧
      ((c2Out.1.get "cortex").map (fun (a : Actor) =>
          a.inbox.any (fun m => pyStartswith "[USER_NOTIFY]" m.content)))
        = some true ∧
      ((c2Out.1.get "amyg").map (fun (a : Actor) => a.state))
        = some ActorState.terminated := by
  decide

/-! ## Observer-preservation lemmas for the runner -/

theorem turnsAt_modify_preserve (r : ActorRegistry) (i : String) (f : Actor → Actor)
    (hf : ∀ a, (f a).turns = a.turns) (id : String) :
    turnsAt (r.modifyActor i f) id = turnsAt r id := by
  unfold turnsAt
  by_cases h : id = i
  · subst h
    rw [get_modify_self]
    cases r.get id with
    | none => rfl
    | some a => simp [hf]
  · rw [get_modify_other _ _ _ _ h]

theorem stateAt_modify_preserve (r : ActorRegistry) (i : String) (f : Actor → Actor)
    (hf : ∀ a, (f a).state = a.state) (id : String) :
    stateAt (r.modifyActor i f) id = stateAt r id := by
  unfold stateAt
  by_cases h : id = i
  · subst h
    rw [get_modify_self]
    cases r.get id with
    | none => rfl
    | some a => simp [hf]
  · rw [get_modify_other _ _ _ _ h]

theorem resultAt_modify_preserve (r : ActorRegistry) (i : String) (f : Actor → Actor)
    (hf : ∀ a, (f a).result = a.result) (id : String) :
    resultAt (r.modifyActor i f) id = resultAt r id := by
  unfold resultAt
  by_cases h : id = i
  · subst h
    rw [get_modify_self]
    cases r.get id with
    | none => rfl
    | some a => simp [hf]
  · rw [get_modify_other _ _ _ _ h]

theorem observers_deliver (r : ActorRegistry) (rid : String) (msg : ActorMessage)
    (id : String) :
    turnsAt (r.deliver rid msg) id = turnsAt r id ∧
      stateAt (r.deliver rid msg) id = stateAt r id ∧
      resultAt (r.deliver rid msg) id = resultAt r id := by
  unfold ActorRegistry.deliver
  refine ⟨?_, ?_, ?_⟩
  · apply turnsAt_modify_preserve
    intro a
    rfl
  · apply stateAt_modify_preserve
    intro a
    rfl
  · apply resultAt_modify_preserve
    intro a
    rfl

theorem observers_onActorTerminated (r : ActorRegistry) (tid nid id : String) :
    turnsAt (r.onActorTerminated tid nid) id = turnsAt r id ∧
      stateAt (r.onActorTerminated tid nid) id = stateAt r id ∧
      resultAt (r.onActorTerminated tid nid) id = resultAt r id := by
  rw [ActorRegistry.onActorTerminated]
  cases hg : r.get tid with
  | none => exact ⟨rfl, rfl, rfl⟩
  | some actor =>
      dsimp only
      by_cases hsb : actor.spawnedBy = ""
      · rw [if_pos hsb]
        exact ⟨rfl, rfl, rfl⟩
      · rw [if_neg hsb]
        cases hp : r.get actor.spawnedBy with
        | none => exact ⟨rfl, rfl, rfl⟩
        | some parent =>
            dsimp only
            by_cases hps : parent.state = ActorState.running
            · rw [if_pos hps]
              exact observers_deliver _ _ _ id
            · rw [if_neg hps]
              exact ⟨rfl, rfl, rfl⟩

theorem terminate_observers_self (r : ActorRegistry) (tid : String)
    (res : Option String) (nid : String) (a : Actor) (hg : r.get tid = some a) :
    turnsAt (terminate r tid res nid) tid = some a.turns ∧
      stateAt (terminate r tid res nid) tid = some ActorState.terminated ∧
      resultAt (terminate r tid res nid) tid
        = some (some (orElseStr res ("Actor " ++ a.config.name ++ " terminated"))) := by
  rw [terminate, hg]
  dsimp only
  have h1 := observers_onActorTerminated
    (r.modifyActor tid (fun x => { x with
      result := some (orElseStr res ("Actor " ++ a.config.name ++ " terminated")),
      state := ActorState.terminated })) tid nid tid
  refine ⟨?_, ?_, ?_⟩
  · rw [h1.1]
    unfold turnsAt
    rw [get_modify_self, hg]
    rfl
  · rw [h1.2.1]
    unfold stateAt
    rw [get_modify_self, hg]
    rfl
  · rw [h1.2.2]
    unfold resultAt
    rw [get_modify_self, hg]
    rfl

theorem turnsAt_terminate_any (r : ActorRegistry) (tid : String)
    (res : Option String) (nid id : String) :
    turnsAt (terminate r tid res nid) id = turnsAt r id := by
  rw [terminate]
  cases hg : r.get tid with
  | none => rfl
  | some a =>
      dsimp only
      rw [(observers_onActorTerminated _ tid nid id).1]
      apply turnsAt_modify_preserve
      intro x
      rfl

theorem turnsAt_sendTo (r : ActorRegistry) (sid rid content : String)
    (rto : Option String) (mid id : String) :
    turnsAt (sendTo r sid rid content rto mid).2 id = turnsAt r id := by
  rw [sendTo]
  cases hg : r.get rid with
  | none => rfl
  | some b =>
      dsimp only
      have hd := (observers_deliver r rid
        { id := mid, sender := sid, recipient := rid,
          content := content, replyTo := rto } id).1
      have hm : turnsAt ((r.deliver rid
          { id := mid, sender := sid, recipient := rid,
            content := content, replyTo := rto }).modifyActor sid
          (fun a => { a with messages := a.messages
            ++ [{ id := mid, sender := sid, recipient := rid,
                  content := content, replyTo := rto }] })) id
          = turnsAt (r.deliver rid
            { id := mid, sender := sid, recipient := rid,
              content := content, replyTo := rto }) id := by
        apply turnsAt_modify_preserve
        intro a
        rfl
      rw [hm, hd]

theorem turnsAt_sendMessageTool (r : ActorRegistry) (selfId aid content rto mid : String)
    (id : String) :
    turnsAt (sendMessageTool r selfId aid content rto mid).2 id = turnsAt r id := by
  rw [sendMessageTool]
  cases hg : r.get aid with
  | none => rfl
  | some target =>
      dsimp only
      by_cases ht : target.state = ActorState.terminated
      · rw [if_pos ht]
      · rw [if_neg ht]
        cases hs : sendTo r selfId aid content
            (if rto = "" then none else some rto) mid with
        | mk exc r1 =>
            have hts := turnsAt_sendTo r selfId aid content
              (if rto = "" then none else some rto) mid id
            rw [hs] at hts
            cases exc with
            | ok m => exact hts
            | error e => exact hts

theorem turnsAt_applyAction (r : ActorRegistry) (selfId : String) (act : ToolAction)
    (hfr : actionFresh selfId act) :
    turnsAt (applyAction r selfId act) selfId = turnsAt r selfId := by
  cases act with
  | sendMessage aid content rto mid =>
      exact turnsAt_sendMessageTool r selfId aid content rto mid selfId
  | waitForResponse =>
      show turnsAt (r.modifyActor selfId
        (fun a => { a with inbox := a.inbox.tail })) selfId = turnsAt r selfId
      apply turnsAt_modify_preserve
      intro a
      rfl
  | discoverActors g => rfl
  | terminateSelf res nid => exact turnsAt_terminate_any r selfId (some res) nid selfId
  | spawnSubagent name goals group toolsCsv model maxTurns newId =>
      rw [applyAction]
      cases hg : r.get selfId with
      | none => rfl
      | some a =>
          dsimp only
          by_cases hgate : (a.isPrincipal || a.config.tools.contains "spawn") = true
          · rw [if_pos hgate]
            unfold turnsAt
            rw [get_spawn_other _ _ _ _ _ _ (Ne.symm hfr)]
          · rw [if_neg hgate]

theorem turnsAt_foldActions (acts : List ToolAction) (r : ActorRegistry)
    (selfId : String) (h : ∀ act ∈ acts, actionFresh selfId act) :
    turnsAt (acts.foldl (fun acc a => applyAction acc selfId a) r) selfId
      = turnsAt r selfId := by
  induction acts generalizing r with
  | nil => rfl
  | cons a rest ih =>
      rw [List.foldl_cons, ih _ (fun act hm => h act (List.mem_cons_of_mem a hm)),
        turnsAt_applyAction r selfId a (h a (List.mem_cons_self a rest))]

theorem turnsAt_some_iff (r : ActorRegistry) (id : String) (t : Nat) :
    turnsAt r id = some t ↔ ∃ b, r.get id = some b ∧ b.turns = t := by
  unfold turnsAt
  cases r.get id <;> simp

/-- Main loop invariant: with a fresh oracle, the actor stays registered
and its `_turns` counter never exceeds `M` when `turn + fuel ≤ M` and the
counter starts at most `M`. -/
theorem runLoop_turns_bound (oracle : Nat → OracleStep) (selfId : String) (M : Nat)
    (hf : oracleFresh selfId oracle) :
    ∀ fuel turn r lastResp, turn + fuel ≤ M →
      (∃ t, turnsAt r selfId = some t ∧ t ≤ M) →
      ∃ b, (runLoop oracle selfId turn fuel r lastResp).1.get selfId = some b
        ∧ b.turns ≤ M := by
  intro fuel
  induction fuel with
  | zero =>
      intro turn r lastResp hle hinv
      obtain ⟨t, ht, htM⟩ := hinv
      obtain ⟨b, hb, hbt⟩ := (turnsAt_some_iff r selfId t).mp ht
      rw [runLoop]
      exact ⟨b, hb, hbt ▸ htM⟩
  | succ fuel ih =>
      intro turn r lastResp hle hinv
      obtain ⟨t, ht, htM⟩ := hinv
      obtain ⟨b0, hb0, hb0t⟩ := (turnsAt_some_iff r selfId t).mp ht
      rw [runLoop]
      have h1 : (r.modifyActor selfId (fun a => { a with turns := turn + 1 })).get selfId
          = some { b0 with turns := turn + 1 } := by
        rw [get_modify_self, hb0]
        rfl
      rw [h1]
      dsimp only
      have hturn1 : turn + 1 ≤ M := by omega
      by_cases hbs : ({ b0 with turns := turn + 1 } : Actor).state = ActorState.terminated
      · rw [if_pos hbs]
        exact ⟨{ b0 with turns := turn + 1 }, h1, hturn1⟩
      · rw [if_neg hbs]
        set r1 := r.modifyActor selfId (fun a => { a with turns := turn + 1 }) with hr1
        set r2 := r1.modifyActor selfId (fun x => { x with inbox := [] }) with hr2
        have h2 : turnsAt r2 selfId = some (turn + 1) := by
          have hp : turnsAt r2 selfId = turnsAt r1 selfId := by
            rw [hr2]
            apply turnsAt_modify_preserve
            intro a
            rfl
          rw [hp]
          unfold turnsAt
          rw [h1]
          rfl
        set r3 := (oracle turn).actions.foldl
          (fun acc act => applyAction acc selfId act) r2 with hr3
        have h3 : turnsAt r3 selfId = some (turn + 1) := by
          rw [hr3, turnsAt_foldActions _ _ _ (hf turn)]
          exact h2
        cases hresp : (oracle turn).response with
        | error e =>
            dsimp only
            have h4 : turnsAt (terminate r3 selfId (some ("Error: " ++ e)) "") selfId
                = some (turn + 1) := by
              rw [turnsAt_terminate_any]
              exact h3
            obtain ⟨b, hb, hbt⟩ := (turnsAt_some_iff _ selfId (turn + 1)).mp h4
            exact ⟨b, hb, hbt ▸ hturn1⟩
        | ok resp =>
            dsimp only
            obtain ⟨a1, ha1, ha1t⟩ := (turnsAt_some_iff _ selfId (turn + 1)).mp h3
            rw [ha1]
            dsimp only
            by_cases ha1s : a1.state = ActorState.terminated
            · rw [if_pos ha1s]
              exact ⟨a1, ha1, ha1t ▸ hturn1⟩
            · rw [if_neg ha1s]
              by_cases hack : ackWords.contains (pyLower resp.trim) = true
              · rw [if_pos hack]
                exact ih (turn + 1) r3 (some resp) (by omega)
                  ⟨turn + 1, h3, hturn1⟩
              · rw [if_neg hack]
                refine ih (turn + 1) _ (some resp) (by omega) ⟨turn + 1, ?_, hturn1⟩
                have hp : turnsAt (r3.modifyActor selfId
                    (fun x => { x with inbox := x.inbox.tail })) selfId
                    = turnsAt r3 selfId := by
                  apply turnsAt_modify_preserve
                  intro a
                  rfl
                rw [hp]
                exact h3

theorem append_ne_empty (x y : String) (h : x ≠ "") : x ++ y ≠ "" := by
  intro hc
  apply h
  have hdata : x.data ++ y.data = [] := by
    have := congrArg String.data hc
    simpa using this
  have hx : x.data = [] := (List.append_eq_nil.mp hdata).1
  cases x with
  | mk d =>
      cases hx
      rfl

theorem orElseStr_of_ne (s y : String) (h : s ≠ "") : orElseStr (some s) y = s := by
  simp [orElseStr, h]

theorem orElseStr_bind_result (r : ActorRegistry) (id : String) (a : Actor)
    (hg : r.get id = some a) :
    orElseStr ((r.get id).bind (fun x => x.result)) "No result"
      = orElseStr a.result "No result" := by
  rw [hg]
  rfl

/-! ## Claim C8 — runner bound and forced termination -/

/-- Claim C8: for every actor driven by `ActorRunner.run` (with a fresh-id
oracle and `max_turns = M ≥ 1`), when `run` returns the actor's turn
counter is at most `M` and the actor is Terminated; and whenever the loop
finished with the actor not yet terminated, the runner force-terminated it
and returned `"Max turns reached. Last response: " ++ <the truncated last
LLM response>`. -/
theorem c8_runner_bound (oracle : Nat → OracleStep) (selfId : String)
    (r : ActorRegistry) (ff : Option String) (a0 : Actor) (M : Nat)
    (ha : r.get selfId = some a0) (hturns : a0.turns = 0)
    (hM : a0.config.maxTurns = M) (_hM1 : 1 ≤ M)
    (hf : oracleFresh selfId oracle) :
    (∃ a', (runnerRun oracle selfId r ff).1.get selfId = some a' ∧
        a'.turns ≤ M ∧ a'.state = ActorState.terminated) ∧
      (ff = none →
        ∀ b, (runLoop oracle selfId 0 M r none).1.get selfId = some b →
          b.state ≠ ActorState.terminated →
          (runnerRun oracle selfId r ff).2
            = "Max turns reached. Last response: "
                ++ truncResp (runLoop oracle selfId 0 M r none).2) := by
  cases ff with
  | some e =>
      constructor
      · rw [runnerRun]
        dsimp only
        have hobs := terminate_observers_self r selfId
          (some ("Runner error: " ++ e)) "" a0 ha
        obtain ⟨a', hget, hat⟩ := (turnsAt_some_iff _ selfId a0.turns).mp hobs.1
        refine ⟨a', hget, ?_, ?_⟩
        · omega
        · have := hobs.2.1
          unfold stateAt at this
          rw [hget] at this
          simpa using this
      · intro hc
        exact absurd hc (by simp)
  | none =>
      rw [runnerRun]
      dsimp only
      rw [ha]
      dsimp only
      rw [hM]
      have hinv0 : turnsAt r selfId = some 0 := by
        unfold turnsAt
        rw [ha]
        simp [hturns]
      obtain ⟨b, hbget, hbturns⟩ := runLoop_turns_bound oracle selfId M hf M 0 r none
        (by omega) ⟨0, hinv0, by omega⟩
      rw [hbget]
      dsimp only
      by_cases hterm : b.state ≠ ActorState.terminated
      · rw [if_pos hterm]
        have hmsgne : ("Max turns reached. Last response: "
            ++ truncResp (runLoop oracle selfId 0 M r none).2) ≠ "" :=
          append_ne_empty _ _ (by decide)
        have hobs := terminate_observers_self (runLoop oracle selfId 0 M r none).1
          selfId (some ("Max turns reached. Last response: "
            ++ truncResp (runLoop oracle selfId 0 M r none).2)) "" b hbget
        obtain ⟨a', hget, hat⟩ := (turnsAt_some_iff _ selfId b.turns).mp hobs.1
        have hstate : a'.state = ActorState.terminated := by
          have := hobs.2.1
          unfold stateAt at this
          rw [hget] at this
          simpa using this
        have hres : a'.result = some ("Max turns reached. Last response: "
            ++ truncResp (runLoop oracle selfId 0 M r none).2) := by
          have := hobs.2.2
          unfold resultAt at this
          rw [hget, orElseStr_of_ne _ _ hmsgne] at this
          simpa using this
        constructor
        · exact ⟨a', hget, hat ▸ hbturns, hstate⟩
        · intro _ b' hb' _
          rw [orElseStr_bind_result _ selfId a' hget, hres,
            orElseStr_of_ne _ _ hmsgne]
      · rw [if_neg hterm]
        push_neg at hterm
        constructor
        · exact ⟨b, hbget, hbturns, hterm⟩
        · intro _ b' hb' hb'state
          injection hb' with hbb
          exact absurd (hbb ▸ hterm) hb'state

/-- Witness for `c8_runner_bound`: the registered worker `w1` of
`workerReg` driven by `lazyOracle` (which never terminates the actor), with
`max_turns = 2` and no factory failure. -/
theorem c8_runner_bound_witness :
    (∃ a', (runnerRun lazyOracle "w1" workerReg none).1.get "w1" = some a' ∧
        a'.turns ≤ 2 ∧ a'.state = ActorState.terminated) ∧
      (none = (none : Option String) →
        ∀ b, (runLoop lazyOracle "w1" 0 2 workerReg none).1.get "w1" = some b →
          b.state ≠ ActorState.terminated →
          (runnerRun lazyOracle "w1" workerReg none).2
            = "Max turns reached. Last response: "
                ++ truncResp (runLoop lazyOracle "w1" 0 2 workerReg none).2) :=
  c8_runner_bound lazyOracle "w1" workerReg none w1Actor 2
    (by decide) (by decide) (by decide) (by decide)
    (by intro n act hmem; simp [lazyOracle] at hmem)

/-! ## String toolkit for the tag-log compaction -/

theorem dropWhile_eq_self_of_head (p : Char → Bool) (l : List Char)
    (h : ∀ c, l.head? = some c → p c = false) : l.dropWhile p = l := by
  cases l with
  | nil => rfl
  | cons c t =>
      rw [List.dropWhile_cons, h c rfl]
      simp

theorem dropWhile_append_of_head (p : Char → Bool) (A B : List Char)
    (h : ∀ c, B.head? = some c → p c = false) :
    (A ++ B).dropWhile p = A.dropWhile p ++ B := by
  induction A with
  | nil =>
      simp only [List.nil_append, List.dropWhile_nil]
      rw [dropWhile_eq_self_of_head p B h]
  | cons a A ih =>
      rw [List.cons_append, List.dropWhile_cons, List.dropWhile_cons]
      by_cases hp : p a = true
      · rw [if_pos hp, if_pos hp, ih]
      · rw [if_neg hp, if_neg hp, List.cons_append]

theorem mk_data (s : String) : String.mk s.data = s := by
  cases s
  rfl

theorem pyStrip_eq_self (s : String)
    (h1 : ∀ c, s.data.head? = some c → isPySpace c = false)
    (h2 : ∀ c, s.data.getLast? = some c → isPySpace c = false) :
    pyStrip s = s := by
  unfold pyStrip
  rw [dropWhile_eq_self_of_head _ _ h1,
    dropWhile_eq_self_of_head _ _ (fun c hc =>
      h2 c ((List.head?_reverse s.data) ▸ hc)),
    List.reverse_reverse]

theorem pyStrip_data_structure (s : String) (p q : List Char)
    (hs : s.data = p ++ q)
    (hhead : ∀ c, (p ++ q).head? = some c → isPySpace c = false)
    (hlast : ∀ c, p.getLast? = some c → isPySpace c = false) :
    ∃ t, (pyStrip s).data = p ++ t := by
  refine ⟨(q.reverse.dropWhile isPySpace).reverse, ?_⟩
  show (((s.data.dropWhile isPySpace).reverse.dropWhile isPySpace).reverse)
      = p ++ (q.reverse.dropWhile isPySpace).reverse
  rw [hs, dropWhile_eq_self_of_head _ _ hhead, List.reverse_append,
    dropWhile_append_of_head _ _ _ (fun c hc =>
      hlast c ((List.head?_reverse p) ▸ hc)),
    List.reverse_append, List.reverse_reverse]

theorem splitlinesCore_append (A B : List Char) (h : ('\n' : Char) ∉ A) :
    splitlinesCore (A ++ '\n' :: B) = A :: splitlinesCore B := by
  induction A with
  | nil => simp [splitlinesCore]
  | cons c t ih =>
      have hc : ¬(c = '\n') := fun e => h (by rw [← e]; exact List.mem_cons_self c t)
      have hmem : ('\n' : Char) ∉ t := fun hm => h (List.mem_cons_of_mem c hm)
      rw [List.cons_append, splitlinesCore, if_neg hc, ih hmem]

theorem splitlinesCore_no_nl : ∀ (A : List Char), ('\n' : Char) ∉ A → A ≠ [] →
    splitlinesCore A = [A]
  | [], _, hne => absurd rfl hne
  | c :: t, h, _ => by
      have hc : ¬(c = '\n') := fun e => h (by rw [← e]; exact List.mem_cons_self c t)
      have hmem : ('\n' : Char) ∉ t := fun hm => h (List.mem_cons_of_mem c hm)
      cases t with
      | nil => simp [splitlinesCore, hc]
      | cons d t2 =>
          rw [splitlinesCore, if_neg hc,
            splitlinesCore_no_nl (d :: t2) hmem (by simp)]

theorem splitlinesCore_cons_head (c : Char) (X : List Char) (hc : ¬(c = '\n')) :
    ∃ l ls, splitlinesCore (c :: X) = (c :: l) :: ls := by
  cases hX : splitlinesCore X with
  | nil => exact ⟨[], [], by rw [splitlinesCore, if_neg hc, hX]⟩
  | cons l ls => exact ⟨l, ls, by rw [splitlinesCore, if_neg hc, hX]⟩

theorem pyJoin_cons_cons (sep x y : String) (zs : List String) :
    pyJoin sep (x :: y :: zs) = x ++ sep ++ pyJoin sep (y :: zs) := rfl

theorem pyJoin_cons_ne (sep x : String) (l : List String) (hl : l ≠ []) :
    pyJoin sep (x :: l) = x ++ sep ++ pyJoin sep l := by
  cases l with
  | nil => exact absurd rfl hl
  | cons z zs => rfl

theorem pyJoin_getLast : ∀ (xs : List String) (y : String), y.data ≠ [] →
    (pyJoin "\n" (xs ++ [y])).data.getLast? = y.data.getLast?
  | [], _, _ => rfl
  | x :: xs, y, hy => by
      have hrec := pyJoin_getLast xs y hy
      have hne2 : (pyJoin "\n" (xs ++ [y])).data ≠ [] := by
        intro hc
        rw [hc] at hrec
        exact hy (List.getLast?_eq_none_iff.mp hrec.symm)
      rw [List.cons_append, pyJoin_cons_ne _ _ _ (by simp), String.data_append,
        List.getLast?_append_of_ne_nil _ hne2, hrec]

theorem pyJoin_head (x : String) (xs : List String) (hx : x.data ≠ []) :
    (pyJoin "\n" (x :: xs)).data.head? = x.data.head? := by
  cases xs with
  | nil => rfl
  | cons z zs =>
      rw [pyJoin_cons_ne _ _ _ (by simp), String.data_append, String.data_append,
        List.head?_append_of_ne_nil _ (by simp [hx]),
        List.head?_append_of_ne_nil _ hx]

theorem isPrefixOf_append_self (l r : List Char) : l.isPrefixOf (l ++ r) = true := by
  induction l with
  | nil => simp [List.isPrefixOf]
  | cons c t ih => simp [List.isPrefixOf, ih]

theorem isHeaderLine_dash (l : List Char) :
    isHeaderLine (String.mk ('-' :: l)) = false := by
  unfold isHeaderLine pyStartswith
  rw [show ("# Emotional tags (compacted at ").data
      = '#' :: (" Emotional tags (compacted at ").data from rfl]
  have hne : (('#' : Char) == '-') = false := by decide
  simp [List.isPrefixOf, hne]

theorem h0_data_ne (nowTs : String) :
    ("# Emotional tags (compacted at " ++ nowTs ++ ")").data ≠ [] := by
  rw [String.data_append, String.data_append]
  intro hc
  exact absurd (List.append_eq_nil.mp (List.append_eq_nil.mp hc).1).1 (by decide)

theorem h0_head (nowTs : String) :
    ("# Emotional tags (compacted at " ++ nowTs ++ ")").data.head? = some '#' := by
  rw [String.data_append, String.data_append,
    List.head?_append_of_ne_nil _ (fun hc =>
      absurd (List.append_eq_nil.mp hc).1 (by decide)),
    List.head?_append_of_ne_nil _ (by decide)]
  rfl

/-! ## Tag-log compaction lemmas -/

theorem compactTagLog_small (content nowTs : String)
    (h : content.length ≤ tagLogMaxChars) :
    compactTagLog (some content) nowTs = (some content, 0) := by
  unfold compactTagLog
  dsimp only
  rw [if_pos h]

theorem compactTagLog_big_eq (content nowTs : String)
    (hbig : tagLogMaxChars < content.length) :
    compactTagLog (some content) nowTs
      = (some (pyStrip (pyJoin "\n"
            (["# Emotional tags (compacted at " ++ nowTs ++ ")",
              "- pruned_lines: "
                ++ toString ((pySplitlines content).length - (keepOf content).length),
              "- note: keeping only recent rolling window",
              ""] ++ keepOf content)) ++ "\n"),
         (pySplitlines content).length - (keepOf content).length) := by
  unfold compactTagLog
  dsimp only
  rw [if_neg (not_le.mpr hbig)]
  rfl

theorem compact_big_out_structure (content nowTs : String)
    (hbig : tagLogMaxChars < content.length)
    (hts : ('\n' : Char) ∉ nowTs.data) :
    ∀ out, (compactTagLog (some content) nowTs).1 = some out →
      twoHeadersTop out = false := by
  intro out hout
  rw [compactTagLog_big_eq content nowTs hbig] at hout
  dsimp only at hout
  injection hout with he
  have hJ : pyJoin "\n"
      (["# Emotional tags (compacted at " ++ nowTs ++ ")",
        "- pruned_lines: "
          ++ toString ((pySplitlines content).length - (keepOf content).length),
        "- note: keeping only recent rolling window",
        ""] ++ keepOf content)
      = ("# Emotional tags (compacted at " ++ nowTs ++ ")") ++ "\n"
        ++ (("- pruned_lines: "
            ++ toString ((pySplitlines content).length - (keepOf content).length))
          ++ "\n"
          ++ (("- note: keeping only recent rolling window") ++ "\n"
            ++ pyJoin "\n" ("" :: keepOf content))) := by
    simp only [List.cons_append, List.nil_append]
    rw [pyJoin_cons_cons, pyJoin_cons_cons, pyJoin_cons_cons]
  have hs : (pyJoin "\n"
      (["# Emotional tags (compacted at " ++ nowTs ++ ")",
        "- pruned_lines: "
          ++ toString ((pySplitlines content).length - (keepOf content).length),
        "- note: keeping only recent rolling window",
        ""] ++ keepOf content)).data
      = (((("# Emotional tags (compacted at ").data ++ (nowTs.data ++ [')']))
          ++ '\n' :: ((("- pruned_lines: ").data
            ++ (toString ((pySplitlines content).length - (keepOf content).length)).data)
            ++ ['\n']))
         ++ ("- note: keeping only recent rolling window").data)
        ++ ('\n' :: (pyJoin "\n" ("" :: keepOf content)).data) := by
    rw [hJ]
    simp only [String.data_append,
      show (")" : String).data = [')'] from rfl,
      show ("\n" : String).data = ['\n'] from rfl,
      List.append_assoc, List.cons_append, List.singleton_append, List.nil_append]
  have hh : ∀ c, ((((("# Emotional tags (compacted at ").data ++ (nowTs.data ++ [')']))
          ++ '\n' :: ((("- pruned_lines: ").data
            ++ (toString ((pySplitlines content).length - (keepOf content).length)).data)
            ++ ['\n']))
         ++ ("- note: keeping only recent rolling window").data)
        ++ ('\n' :: (pyJoin "\n" ("" :: keepOf content)).data)).head? = some c →
      isPySpace c = false := by
    intro c hc
    rw [show (((((("# Emotional tags (compacted at ").data ++ (nowTs.data ++ [')']))
          ++ '\n' :: ((("- pruned_lines: ").data
            ++ (toString ((pySplitlines content).length - (keepOf content).length)).data)
            ++ ['\n']))
         ++ ("- note: keeping only recent rolling window").data)
        ++ ('\n' :: (pyJoin "\n" ("" :: keepOf content)).data)).head?)
        = some '#' from by
      simp only [List.append_assoc, List.cons_append, List.singleton_append,
        List.nil_append]
      rfl] at hc
    cases hc
    decide
  have hl : ∀ c, (((("# Emotional tags (compacted at ").data ++ (nowTs.data ++ [')']))
          ++ '\n' :: ((("- pruned_lines: ").data
            ++ (toString ((pySplitlines content).length - (keepOf content).length)).data)
            ++ ['\n']))
         ++ ("- note: keeping only recent rolling window").data).getLast? = some c →
      isPySpace c = false := by
    intro c hc
    rw [List.getLast?_append_of_ne_nil _ (by decide)] at hc
    rw [show (("- note: keeping only recent rolling window").data).getLast?
        = some 'w' from by decide] at hc
    cases hc
    decide
  obtain ⟨t, hstrip⟩ := pyStrip_data_structure _ _ _ hs hh hl
  have hod2 : out.data
      = (("# Emotional tags (compacted at ").data ++ (nowTs.data ++ [')']))
        ++ '\n' :: ('-' :: ((" pruned_lines: ").data
          ++ ((toString ((pySplitlines content).length - (keepOf content).length)).data
            ++ '\n' :: (("- note: keeping only recent rolling window").data
              ++ (t ++ ['\n']))))) := by
    rw [← he, String.data_append, hstrip,
      show ("\n" : String).data = ['\n'] from rfl,
      show ("- pruned_lines: ").data = '-' :: (" pruned_lines: ").data from rfl]
    simp only [List.append_assoc, List.cons_append, List.singleton_append,
      List.nil_append]
  have hA : ('\n' : Char)
      ∉ (("# Emotional tags (compacted at ").data ++ (nowTs.data ++ [')'])) := by
    intro hc
    rcases List.mem_append.mp hc with h1 | h2
    · exact absurd h1 (by decide)
    · rcases List.mem_append.mp h2 with h3 | h4
      · exact hts h3
      · exact absurd h4 (by decide)
  unfold twoHeadersTop pySplitlines
  rw [hod2, splitlinesCore_append _ _ hA]
  obtain ⟨l2, ls2, hrest⟩ := splitlinesCore_cons_head '-'
    ((" pruned_lines: ").data
      ++ ((toString ((pySplitlines content).length - (keepOf content).length)).data
        ++ '\n' :: (("- note: keeping only recent rolling window").data
          ++ (t ++ ['\n']))))
    (by decide)
  rw [hrest]
  dsimp only [List.map]
  rw [isHeaderLine_dash]
  exact Bool.and_false _

theorem compactTagLog_headerOnce (file : Option String) (ts : String)
    (hts : ('\n' : Char) ∉ ts.data)
    (hok : ∀ s, file = some s → twoHeadersTop s = false) :
    ∀ s, (compactTagLog file ts).1 = some s → twoHeadersTop s = false := by
  intro s hs
  cases file with
  | none => simp [compactTagLog] at hs
  | some content =>
      by_cases hlen : content.length ≤ tagLogMaxChars
      · rw [compactTagLog_small content ts hlen] at hs
        dsimp only at hs
        injection hs with h2
        rw [← h2]
        exact hok content rfl
      · exact compact_big_out_structure content ts (not_le.mp hlen) hts s hs

theorem compactSeq_headerOnce : ∀ (tss : List String) (file : Option String),
    (∀ ts ∈ tss, ('\n' : Char) ∉ ts.data) →
    (∀ s, file = some s → twoHeadersTop s = false) →
    ∀ s, compactSeq file tss = some s → twoHeadersTop s = false
  | [], _, _, hok, s, hs => hok s hs
  | ts :: rest, file, hall, hok, s, hs =>
      compactSeq_headerOnce rest (compactTagLog file ts).1
        (fun t ht => hall t (List.mem_cons_of_mem ts ht))
        (compactTagLog_headerOnce file ts (hall ts (List.mem_cons_self ts rest)) hok)
        s hs

theorem compactTagLog_big_exact (content nowTs : String)
    (hbig : tagLogMaxChars < content.length)
    (lastLine : String)
    (hkeep : (keepOf content).getLast? = some lastLine)
    (hlne : lastLine.data ≠ [])
    (hlc : ∀ c, lastLine.data.getLast? = some c → isPySpace c = false) :
    (compactTagLog (some content) nowTs).1
      = some (pyJoin "\n"
          (["# Emotional tags (compacted at " ++ nowTs ++ ")",
            "- pruned_lines: "
              ++ toString ((pySplitlines content).length - (keepOf content).length),
            "- note: keeping only recent rolling window",
            ""] ++ keepOf content) ++ "\n") := by
  rw [compactTagLog_big_eq content nowTs hbig]
  dsimp only
  obtain ⟨xs, hxs⟩ := List.getLast?_eq_some_iff.mp hkeep
  have hJlast : (pyJoin "\n"
      (["# Emotional tags (compacted at " ++ nowTs ++ ")",
        "- pruned_lines: "
          ++ toString ((pySplitlines content).length - (keepOf content).length),
        "- note: keeping only recent rolling window",
        ""] ++ keepOf content)).data.getLast? = lastLine.data.getLast? := by
    rw [hxs, ← List.append_assoc]
    exact pyJoin_getLast _ lastLine hlne
  have hJhead : (pyJoin "\n"
      (["# Emotional tags (compacted at " ++ nowTs ++ ")",
        "- pruned_lines: "
          ++ toString ((pySplitlines content).length - (keepOf content).length),
        "- note: keeping only recent rolling window",
        ""] ++ keepOf content)).data.head? = some '#' := by
    rw [show (["# Emotional tags (compacted at " ++ nowTs ++ ")",
        "- pruned_lines: "
          ++ toString ((pySplitlines content).length - (keepOf content).length),
        "- note: keeping only recent rolling window",
        ""] ++ keepOf content)
        = ("# Emotional tags (compacted at " ++ nowTs ++ ")")
          :: (["- pruned_lines: "
              ++ toString ((pySplitlines content).length - (keepOf content).length),
              "- note: keeping only recent rolling window",
              ""] ++ keepOf content) from by simp,
      pyJoin_head _ _ (h0_data_ne nowTs)]
    exact h0_head nowTs
  rw [pyStrip_eq_self _
    (fun c hc => by rw [hJhead] at hc; cases hc; decide)
    (fun c hc => by rw [hJlast] at hc; exact hlc c hc)]

theorem longLine_length : longLine.length = 24001 := by
  rw [show longLine.length = (List.replicate 24001 'a').length from rfl,
    List.length_replicate]

theorem longLine_data_ne : longLine.data ≠ [] := by
  rw [show longLine.data = List.replicate 24001 'a' from rfl]
  intro hc
  have h2 := congrArg List.length hc
  rw [List.length_replicate] at h2
  simp at h2

theorem longLine_last : longLine.data.getLast? = some 'a' := by
  rw [show longLine.data = List.replicate 24001 'a' from rfl,
    show (24001 : Nat) = 24000 + 1 from rfl, List.replicate_succ' 24000 'a',
    List.getLast?_concat]

theorem pySplitlines_longLine : pySplitlines longLine = [longLine] := by
  unfold pySplitlines
  rw [show longLine.data = List.replicate 24001 'a' from rfl,
    splitlinesCore_no_nl (List.replicate 24001 'a')
      (fun hmem => absurd (List.eq_of_mem_replicate hmem) (by decide))
      (fun hc => by
        have h2 := congrArg List.length hc
        rw [List.length_replicate] at h2
        exact absurd h2 (by decide))]
  rfl

theorem keepOf_longLine : keepOf longLine = [longLine] := by
  unfold keepOf
  rw [pySplitlines_longLine]
  rfl

theorem longLine_big : tagLogMaxChars < longLine.length := by
  rw [longLine_length]
  decide

/-- The full compaction output on the 24001-character single-line input:
the four-line header (including the note line and the blank line), the kept
line, and the trailing newline; the strip is the identity here. -/
theorem compact_longLine_val :
    (compactTagLog (some longLine) sampleTs).1
      = some (pyJoin "\n"
          (["# Emotional tags (compacted at " ++ sampleTs ++ ")",
            "- pruned_lines: "
              ++ toString ((pySplitlines longLine).length - (keepOf longLine).length),
            "- note: keeping only recent rolling window",
            ""] ++ keepOf longLine) ++ "\n") :=
  compactTagLog_big_exact longLine sampleTs longLine_big longLine
    (by rw [keepOf_longLine]; rfl) longLine_data_ne
    (fun c hc => by rw [longLine_last] at hc; cases hc; decide)

theorem compact_snd_eq (content nowTs : String)
    (hbig : tagLogMaxChars < content.length) :
    (compactTagLog (some content) nowTs).2
      = (pySplitlines content).length - (keepOf content).length := by
  rw [compactTagLog_big_eq content nowTs hbig]

theorem compact_longLine_snd : (compactTagLog (some longLine) sampleTs).2 = 0 := by
  rw [compact_snd_eq longLine sampleTs longLine_big, pySplitlines_longLine,
    keepOf_longLine]
  simp

theorem claimed_longLine_eval :
    compactTagLogClaimed longLine sampleTs
      = "# Emotional tags (compacted at " ++ sampleTs ++ ")" ++ "\n"
        ++ ("- pruned_lines: " ++ toString (0 : Nat) ++ "\n" ++ longLine) := by
  unfold compactTagLogClaimed
  rw [pySplitlines_longLine]
  rfl

theorem actual_longLine_eval :
    (compactTagLog (some longLine) sampleTs).1
      = some ("# Emotional tags (compacted at " ++ sampleTs ++ ")" ++ "\n"
          ++ ("- pruned_lines: " ++ toString (0 : Nat) ++ "\n"
            ++ ("- note: keeping only recent rolling window" ++ "\n"
              ++ ("" ++ "\n" ++ longLine))) ++ "\n") := by
  have harg : (pySplitlines longLine).length - (keepOf longLine).length = 0 := by
    rw [pySplitlines_longLine, keepOf_longLine]
    simp
  rw [compact_longLine_val, harg, keepOf_longLine]
  rw [show (["# Emotional tags (compacted at " ++ sampleTs ++ ")",
      "- pruned_lines: " ++ toString (0 : Nat),
      "- note: keeping only recent rolling window",
      ""] ++ [longLine])
      = ["# Emotional tags (compacted at " ++ sampleTs ++ ")",
         "- pruned_lines: " ++ toString (0 : Nat),
         "- note: keeping only recent rolling window",
         "", longLine] from by simp]
  rw [pyJoin_cons_cons, pyJoin_cons_cons, pyJoin_cons_cons, pyJoin_cons_cons]
  rfl

/-- Claim C5, counterexample: on a tag-log consisting of one 24001-character
line, the compacted file is NOT the claimed header-plus-pruned-plus-window
content (with or without a trailing newline): the code also writes a
`- note:` line and a blank line and appends a final newline.  Moreover
`tags_pruned_total` is incremented by 0, not by a positive amount. -/
theorem c5_counterexample :
    (compactTagLog (some longLine) sampleTs).1
        ≠ some (compactTagLogClaimed longLine sampleTs)
      ∧ (compactTagLog (some longLine) sampleTs).1
        ≠ some (compactTagLogClaimed longLine sampleTs ++ "\n")
      ∧ (compactTagLog (some longLine) sampleTs).2 = 0 := by
  refine ⟨?_, ?_, compact_longLine_snd⟩
  · intro h
    rw [actual_longLine_eval, claimed_longLine_eval] at h
    injection h with h2
    have h3 := congrArg String.length h2
    simp only [String.length_append] at h3
    rw [longLine_length,
      show ("# Emotional tags (compacted at ").length = 31 from rfl,
      show sampleTs.length = 20 from rfl,
      show (")" : String).length = 1 from rfl,
      show ("\n" : String).length = 1 from rfl,
      show ("- pruned_lines: ").length = 16 from rfl,
      show (toString (0 : Nat)).length = 1 from rfl,
      show ("- note: keeping only recent rolling window").length = 42 from rfl,
      show ("" : String).length = 0 from rfl] at h3
    omega
  · intro h
    rw [actual_longLine_eval, claimed_longLine_eval] at h
    injection h with h2
    have h3 := congrArg String.length h2
    simp only [String.length_append] at h3
    rw [longLine_length,
      show ("# Emotional tags (compacted at ").length = 31 from rfl,
      show sampleTs.length = 20 from rfl,
      show (")" : String).length = 1 from rfl,
      show ("\n" : String).length = 1 from rfl,
      show ("- pruned_lines: ").length = 16 from rfl,
      show (toString (0 : Nat)).length = 1 from rfl,
      show ("- note: keeping only recent rolling window").length = 42 from rfl,
      show ("" : String).length = 0 from rfl] at h3
    omega

/-- Claim C5 (amended): `_compact_tag_log` leaves any file of at most 24000
characters unchanged and adds 0 to `tags_pruned_total`.  On a larger file it
adds exactly the number of pruned lines (which is 0 when the file has at
most 140 lines), keeps exactly the last 140 lines (all lines when there are
at most 140), and writes a FOUR-line header — the timestamp line, the
`- pruned_lines:` line, a `- note:` line and a blank line — followed by the
kept window, `str.strip()`-ed and with a final newline appended (the strip
is the identity whenever the last kept line ends in a non-whitespace
character).  The compaction header never appears twice at the top: a
freshly compacted file starts with the header line followed by the
`- pruned_lines:` line, and any sequence of compactions preserves this. -/
theorem c5_compact_tag_log (content nowTs : String) :
    (content.length ≤ 24000 →
        compactTagLog (some content) nowTs = (some content, 0)) ∧
    (24000 < content.length →
        (compactTagLog (some content) nowTs).2
            = (pySplitlines content).length - (keepOf content).length
          ∧ keepOf content
              = (if 140 < (pySplitlines content).length then
                  (pySplitlines content).drop ((pySplitlines content).length - 140)
                 else pySplitlines content)
          ∧ (('\n' : Char) ∉ nowTs.data →
              ∀ out, (compactTagLog (some content) nowTs).1 = some out →
                twoHeadersTop out = false)
          ∧ (∀ lastLine, (keepOf content).getLast? = some lastLine →
              lastLine.data ≠ [] →
              (∀ c, lastLine.data.getLast? = some c → isPySpace c = false) →
              (compactTagLog (some content) nowTs).1
                = some (pyJoin "\n"
                    (["# Emotional tags (compacted at " ++ nowTs ++ ")",
                      "- pruned_lines: " ++ toString
                        ((pySplitlines content).length - (keepOf content).length),
                      "- note: keeping only recent rolling window",
                      ""] ++ keepOf content) ++ "\n"))) ∧
    (∀ (tss : List String) (file : Option String),
        (∀ ts ∈ tss, ('\n' : Char) ∉ ts.data) →
        (∀ s, file = some s → twoHeadersTop s = false) →
        ∀ s, compactSeq file tss = some s → twoHeadersTop s = false) := by
  refine ⟨fun h => compactTagLog_small content nowTs h,
    fun hbig => ⟨?_, ?_, ?_, ?_⟩, ?_⟩
  · exact compact_snd_eq content nowTs hbig
  · rfl
  · intro hts out hout
    exact compact_big_out_structure content nowTs hbig hts out hout
  · intro lastLine hkeep hlne hlc
    exact compactTagLog_big_exact content nowTs hbig lastLine hkeep hlne hlc
  · intro tss file hall hok s hs
    exact compactSeq_headerOnce tss file hall hok s hs

/-- Witness for `c5_compact_tag_log`: a one-character file is left
untouched, and the 24001-character single-line file is rewritten to the
four-line header plus the kept line plus a final newline. -/
theorem c5_compact_tag_log_witness :
    compactTagLog (some "x") sampleTs = (some "x", 0) ∧
    (compactTagLog (some longLine) sampleTs).1
      = some (pyJoin "\n"
          (["# Emotional tags (compacted at " ++ sampleTs ++ ")",
            "- pruned_lines: " ++ toString
              ((pySplitlines longLine).length - (keepOf longLine).length),
            "- note: keeping only recent rolling window",
            ""] ++ keepOf longLine) ++ "\n") := by
  constructor
  · exact (c5_compact_tag_log "x" sampleTs).1 (by decide)
  · have h := (c5_compact_tag_log longLine sampleTs).2.1
      (by rw [longLine_length]; decide)
    exact h.2.2.2 longLine (by rw [keepOf_longLine]; rfl) longLine_data_ne
      (fun c hc => by rw [longLine_last] at hc; cases hc; decide)

end Lethe
